import Mathlib

/-
Verification of the constant-folding pass of matiec (stage3/constant_folding.cc).

Shallow embedding notes.

* Each AST node carries four constant-value slots (bool / int64 / uint64 / real64).
  In the C source a slot is a possibly-NULL pointer to a {status, value} record;
  a NULL pointer and an allocated record with status cs_undefined are
  observationally identical (VALID_CVALUE treats both as invalid), and no code
  path leaves a slot in the allocated-but-undefined state after a visit finishes,
  so both are modelled by `Slot.absent`.  `Slot.overflow` models status
  cs_overflow (the stale value field of an overflowed record is never read:
  every read is guarded by VALID_CVALUE).

* uint64_t values are modelled as `Nat` (kept below 2^64 by wrapping where the
  C code computes a native operation), int64_t values as `Int` (wrapped into
  [-2^63, 2^63) by `i64_wrap` where the native operation may wrap).
  Signed add/sub/mul/neg overflow wraps in the model (the comments in the code
  assume twos-complement arithmetic, and the subsequent CHECK_OVERFLOW_* call marks any
  wrapped result as overflow before it can be observed downstream).
  Division instructions are different: `UINT64_MAX / 0` (reached inside
  CHECK_OVERFLOW_uint64_MUL when the left operand is 0) and the native
  `a / b` / `a % b` with b = 0 or (a = INT64_MIN, b = -1) (executed by
  DO_BINARY_OPER before the corresponding CHECK_OVERFLOW function runs) are
  undefined behaviour in C and trap on common hardware; they are modelled as a
  fault (`Option.none` result of the visit).

* real64_t (IEEE double) values and operations are not interpreted: the whole
  development is parametric in a structure `R64sem` packaging the carrier type
  and the operations the pass applies to doubles (+, -, *, /, unary -, pow,
  the comparisons, and the isnan-or-infinite test used by
  CHECK_OVERFLOW_real64).  Every theorem below holds for an arbitrary
  `R64sem`, in particular for genuine IEEE-754 binary64 semantics.
  Concrete evaluations instantiate it with the trivial carrier `Unit`
  (`S0` below); those evaluations involve no real-typed literals whose values
  matter.

* Integer literals: integer_c / binary_integer_c / octal_integer_c /
  hex_integer_c carry a digit string which extract_int64_value /
  extract_uint64_value parse with strtoll / strtoull (underscores stripped).
  For a digit string denoting the magnitude n, strtoll returns the clamped
  value and sets ERANGE exactly when n > INT64_MAX, and strtoull sets ERANGE
  exactly when n > UINT64_MAX.  A literal node is therefore modelled by its
  magnitude n : Nat, and the extractors by their value/overflow result on n.

* The visitor never reads a pre-existing annotation of any node: literal
  visits overwrite the slots of their node unconditionally (NEW_CVALUE allocates a
  fresh record), and operator visits read only the slots of their children,
  which have just been recomputed by the recursive accept calls.  `fold` below
  therefore ignores the cv components of its input tree, exactly as the C
  visitor does.
-/

namespace ConstantFolding

/-- Constant-value slot of one candidate type: NULL-or-cs_undefined (`absent`),
cs_const_value with its value (`defined`), or cs_overflow (`overflow`). -/
inductive Slot (α : Type) where
  | absent
  | defined (v : α)
  | overflow
deriving DecidableEq

/-- Per-node record of the four constant-value slots (const_value_bool,
const_value_uint64, const_value_int64, const_value_real64 in absyntax.hh). -/
structure CV (R : Type) where
  cv_bool : Slot Bool := Slot.absent
  cv_u64  : Slot Nat  := Slot.absent
  cv_i64  : Slot Int  := Slot.absent
  cv_f64  : Slot R    := Slot.absent
deriving DecidableEq

/-- Semantics of the host real64_t (IEEE binary64) kept abstract: carrier,
the operations the pass applies, and the NaN-or-infinity test. -/
structure R64sem where
  R : Type
  zero : R
  beq : R → R → Bool
  blt : R → R → Bool
  ble : R → R → Bool
  add : R → R → R
  sub : R → R → R
  mul : R → R → R
  div : R → R → R
  neg : R → R
  powi : R → Int → R
  powu : R → Nat → R
  is_nan_or_inf : R → Bool

def UINT64_MAX : Nat := 18446744073709551615

def INT64_MAX : Int := 9223372036854775807

def INT64_MIN : Int := -9223372036854775808

/-- Wrap a natural number into the uint64_t range (native unsigned overflow
wraps modulo 2^64). -/
def u64_wrap (n : Nat) : Nat := n % 18446744073709551616

/-- Wrap an integer into the int64_t range, twos-complement style. -/
def i64_wrap (z : Int) : Int :=
  (z + 9223372036854775808) % 18446744073709551616 - 9223372036854775808

/-- DO_BINARY_OPER for one (dtype -> otype) dispatch: if both operand dtype
slots are VALID_CVALUE, create the result slot with `l oper r`; otherwise
leave the target slot as it was (`old`, which is `absent` for the first
dispatch writing to a slot). -/
def do_binary_upd {α β : Type} (l r : Slot α) (op : α → α → β) (old : Slot β) : Slot β :=
  match l, r with
  | Slot.defined a, Slot.defined b => Slot.defined (op a b)
  | _, _ => old

/-- DO_UNARY_OPER: if the operand slot is VALID_CVALUE, create the result slot
with `oper a`; otherwise the target slot stays absent. -/
def do_unary_upd {α β : Type} (s : Slot α) (op : α → β) : Slot β :=
  match s with
  | Slot.defined a => Slot.defined (op a)
  | _ => Slot.absent

/-- ISZERO_CVALUE(uint64, _): slot is defined and its value is 0. -/
def ISZERO_CVALUE_uint64 (s : Slot Nat) : Bool :=
  match s with
  | Slot.defined v => v == 0
  | _ => false

/-- ISZERO_CVALUE(int64, _): slot is defined and its value is 0. -/
def ISZERO_CVALUE_int64 (s : Slot Int) : Bool :=
  match s with
  | Slot.defined v => v == 0
  | _ => false

/-- ISZERO_CVALUE(real64, _): slot is defined and its value compares equal
to 0.0 with the C == operator. -/
def ISZERO_CVALUE_real64 (S : R64sem) (s : Slot S.R) : Bool :=
  match s with
  | Slot.defined v => S.beq v S.zero
  | _ => false

/-- CHECK_OVERFLOW_uint64_SUM: if the result slot is valid and
(UINT64_MAX - a) < b, downgrade it to overflow. -/
def CHECK_OVERFLOW_uint64_SUM (a b : Slot Nat) (res : Slot Nat) : Slot Nat :=
  match res, a, b with
  | Slot.defined v, Slot.defined av, Slot.defined bv =>
      if UINT64_MAX - av < bv then Slot.overflow else Slot.defined v
  | _, _, _ => res

/-- CHECK_OVERFLOW_uint64_SUB: if the result slot is valid and b > a,
downgrade it to overflow. -/
def CHECK_OVERFLOW_uint64_SUB (a b : Slot Nat) (res : Slot Nat) : Slot Nat :=
  match res, a, b with
  | Slot.defined v, Slot.defined av, Slot.defined bv =>
      if av < bv then Slot.overflow else Slot.defined v
  | _, _, _ => res

/-- CHECK_OVERFLOW_uint64_MUL: the C code evaluates `UINT64_MAX / a` with no
guard on a = 0; when the result slot is valid and a = 0 this is an unsigned
division by zero (undefined behaviour, a trap on mainstream hardware),
modelled as `none`.  Otherwise, if (UINT64_MAX / a) < b the result slot is
downgraded to overflow. -/
def CHECK_OVERFLOW_uint64_MUL (a b : Slot Nat) (res : Slot Nat) : Option (Slot Nat) :=
  match res, a, b with
  | Slot.defined v, Slot.defined av, Slot.defined bv =>
      if av = 0 then none
      else if UINT64_MAX / av < bv then some Slot.overflow else some (Slot.defined v)
  | _, _, _ => some res

/-- CHECK_OVERFLOW_uint64_DIV: division by zero overflows. -/
def CHECK_OVERFLOW_uint64_DIV (a b : Slot Nat) (res : Slot Nat) : Slot Nat :=
  match res, a, b with
  | Slot.defined v, Slot.defined _, Slot.defined bv =>
      if bv = 0 then Slot.overflow else Slot.defined v
  | _, _, _ => res

/-- CHECK_OVERFLOW_uint64_MOD: no overflow condition exists for unsigned MOD
(the C body is `if (false) SET_OVFLOW`). -/
def CHECK_OVERFLOW_uint64_MOD (a b : Slot Nat) (res : Slot Nat) : Slot Nat :=
  match res, a, b with
  | Slot.defined v, Slot.defined _, Slot.defined _ => Slot.defined v
  | _, _, _ => res

/-- CHECK_OVERFLOW_int64_SUM: overflow iff (b > 0 and a > INT64_MAX - b) or
(b < 0 and a < INT64_MIN - b). -/
def CHECK_OVERFLOW_int64_SUM (a b : Slot Int) (res : Slot Int) : Slot Int :=
  match res, a, b with
  | Slot.defined v, Slot.defined av, Slot.defined bv =>
      if (0 < bv ∧ INT64_MAX - bv < av) ∨ (bv < 0 ∧ av < INT64_MIN - bv) then
        Slot.overflow
      else Slot.defined v
  | _, _, _ => res

/-- CHECK_OVERFLOW_int64_SUB: overflow iff (b > 0 and a < INT64_MIN + b) or
(b < 0 and a > INT64_MAX + b). -/
def CHECK_OVERFLOW_int64_SUB (a b : Slot Int) (res : Slot Int) : Slot Int :=
  match res, a, b with
  | Slot.defined v, Slot.defined av, Slot.defined bv =>
      if (0 < bv ∧ av < INT64_MIN + bv) ∨ (bv < 0 ∧ INT64_MAX + bv < av) then
        Slot.overflow
      else Slot.defined v
  | _, _, _ => res

/-- CHECK_OVERFLOW_int64_MUL: the four-quadrant check against
INT64_MAX / INT64_MIN divided by the non-zero operand (C integer division
truncates toward zero, i.e. Int.tdiv). -/
def CHECK_OVERFLOW_int64_MUL (a b : Slot Int) (res : Slot Int) : Slot Int :=
  match res, a, b with
  | Slot.defined v, Slot.defined av, Slot.defined bv =>
      if (0 < av ∧ 0 < bv ∧ Int.tdiv INT64_MAX bv < av)
       ∨ (0 < av ∧ ¬ 0 < bv ∧ bv < Int.tdiv INT64_MIN av)
       ∨ (¬ 0 < av ∧ 0 < bv ∧ av < Int.tdiv INT64_MIN bv)
       ∨ (¬ 0 < av ∧ ¬ 0 < bv ∧ av ≠ 0 ∧ bv < Int.tdiv INT64_MAX av) then
        Slot.overflow
      else Slot.defined v
  | _, _, _ => res

/-- CHECK_OVERFLOW_int64_DIV: overflow iff b = 0 or (a = INT64_MIN and
b = -1). -/
def CHECK_OVERFLOW_int64_DIV (a b : Slot Int) (res : Slot Int) : Slot Int :=
  match res, a, b with
  | Slot.defined v, Slot.defined av, Slot.defined bv =>
      if bv = 0 ∨ (av = INT64_MIN ∧ bv = -1) then Slot.overflow else Slot.defined v
  | _, _, _ => res

/-- CHECK_OVERFLOW_int64_MOD: overflow iff a = INT64_MIN and b = -1 (division
by zero is legal for MOD per IEC 61131-3 and is not tested here). -/
def CHECK_OVERFLOW_int64_MOD (a b : Slot Int) (res : Slot Int) : Slot Int :=
  match res, a, b with
  | Slot.defined v, Slot.defined av, Slot.defined bv =>
      if av = INT64_MIN ∧ bv = -1 then Slot.overflow else Slot.defined v
  | _, _, _ => res

/-- CHECK_OVERFLOW_int64_NEG: overflow iff a = INT64_MIN. -/
def CHECK_OVERFLOW_int64_NEG (a : Slot Int) (res : Slot Int) : Slot Int :=
  match res, a with
  | Slot.defined v, Slot.defined av =>
      if av = INT64_MIN then Slot.overflow else Slot.defined v
  | _, _ => res

/-- CHECK_OVERFLOW_real64: if the result slot is valid and the value is NaN or
an infinity, downgrade it to overflow. -/
def CHECK_OVERFLOW_real64 (S : R64sem) (res : Slot S.R) : Slot S.R :=
  match res with
  | Slot.defined v => if S.is_nan_or_inf v then Slot.overflow else Slot.defined v
  | _ => res

/-- DO_BINARY_OPER(int64, /, int64): the C code executes the native int64_t
division before CHECK_OVERFLOW_int64_DIV runs; for b = 0 or
(a = INT64_MIN, b = -1) the quotient is not representable and the division is
undefined behaviour (a trap on x86-64), modelled as `none`.  Otherwise the
truncating quotient is representable and stored exactly. -/
def int64_div_op (a b : Slot Int) : Option (Slot Int) :=
  match a, b with
  | Slot.defined av, Slot.defined bv =>
      if bv = 0 ∨ (av = INT64_MIN ∧ bv = -1) then none
      else some (Slot.defined (Int.tdiv av bv))
  | _, _ => some Slot.absent

/-- DO_BINARY_OPER(int64, %, int64): like `int64_div_op`, the native remainder
is executed before CHECK_OVERFLOW_int64_MOD runs and is undefined behaviour
for b = 0 or (a = INT64_MIN, b = -1); C remainder truncates toward zero
(Int.tmod). -/
def int64_mod_op (a b : Slot Int) : Option (Slot Int) :=
  match a, b with
  | Slot.defined av, Slot.defined bv =>
      if bv = 0 ∨ (av = INT64_MIN ∧ bv = -1) then none
      else some (Slot.defined (Int.tmod av bv))
  | _, _ => some Slot.absent

/-- extract_int64_value on a literal of magnitude n: strtoll clamps to
INT64_MAX and reports ERANGE exactly when n > INT64_MAX. -/
def extract_int64_value (n : Nat) : Int × Bool :=
  if n ≤ 9223372036854775807 then ((n : Int), false) else (INT64_MAX, true)

/-- extract_uint64_value on a literal of magnitude n: strtoull clamps to
UINT64_MAX and reports ERANGE exactly when n > UINT64_MAX. -/
def extract_uint64_value (n : Nat) : Nat × Bool :=
  if n ≤ 18446744073709551615 then (n, false) else (UINT64_MAX, true)

/-- C comparison a < b on two bools (promoted to int 0/1). -/
def bool_lt (a b : Bool) : Bool := !a && b

/-- C comparison a > b on two bools (promoted to int 0/1). -/
def bool_gt (a b : Bool) : Bool := a && !b

/-- C comparison a <= b on two bools (promoted to int 0/1). -/
def bool_le (a b : Bool) : Bool := !a || b

/-- C comparison a >= b on two bools (promoted to int 0/1). -/
def bool_ge (a b : Bool) : Bool := a || !b

/-- visit(integer_c) (also binary_integer_c, octal_integer_c, hex_integer_c,
whose visits are identical once the magnitude has been extracted): seed the
int64 and uint64 slots from the extractors, downgrading to overflow on
ERANGE. -/
def visit_integer {R : Type} (n : Nat) : CV R :=
  { cv_i64 := if (extract_int64_value n).2 then Slot.overflow
              else Slot.defined (extract_int64_value n).1,
    cv_u64 := if (extract_uint64_value n).2 then Slot.overflow
              else Slot.defined (extract_uint64_value n).1 }

/-- visit(real_c): seed the real64 slot from extract_real_value (value v,
ERANGE flag ovf). -/
def visit_real (S : R64sem) (v : S.R) (ovf : Bool) : CV S.R :=
  { cv_f64 := if ovf then Slot.overflow else Slot.defined v }

/-- visit(boolean_true_c). -/
def visit_boolean_true {R : Type} : CV R :=
  { cv_bool := Slot.defined true }

/-- visit(boolean_false_c). -/
def visit_boolean_false {R : Type} : CV R :=
  { cv_bool := Slot.defined false }

/-- visit(or_expression_c): (bool, ||, bool) and (uint64, |, uint64). -/
def visit_or_expression {R : Type} (lc rc : CV R) : CV R :=
  { cv_bool := do_binary_upd lc.cv_bool rc.cv_bool (fun a b => a || b) Slot.absent,
    cv_u64  := do_binary_upd lc.cv_u64 rc.cv_u64 (fun a b => a ||| b) Slot.absent }

/-- visit(xor_expression_c): (bool, ^, bool) and (uint64, ^, uint64). -/
def visit_xor_expression {R : Type} (lc rc : CV R) : CV R :=
  { cv_bool := do_binary_upd lc.cv_bool rc.cv_bool (fun a b => xor a b) Slot.absent,
    cv_u64  := do_binary_upd lc.cv_u64 rc.cv_u64 (fun a b => a ^^^ b) Slot.absent }

/-- visit(and_expression_c): (bool, &&, bool) and (uint64, &, uint64). -/
def visit_and_expression {R : Type} (lc rc : CV R) : CV R :=
  { cv_bool := do_binary_upd lc.cv_bool rc.cv_bool (fun a b => a && b) Slot.absent,
    cv_u64  := do_binary_upd lc.cv_u64 rc.cv_u64 (fun a b => a &&& b) Slot.absent }

/-- visit(equ_expression_c): four dispatches into cv_bool, in source order
bool, uint64, int64, real64 (a later valid dispatch overwrites the slot). -/
def visit_equ_expression (S : R64sem) (lc rc : CV S.R) : CV S.R :=
  { cv_bool :=
      do_binary_upd lc.cv_f64 rc.cv_f64 S.beq
        (do_binary_upd lc.cv_i64 rc.cv_i64 (fun a b => a == b)
          (do_binary_upd lc.cv_u64 rc.cv_u64 (fun a b => a == b)
            (do_binary_upd lc.cv_bool rc.cv_bool (fun a b => a == b) Slot.absent))) }

/-- visit(notequ_expression_c). -/
def visit_notequ_expression (S : R64sem) (lc rc : CV S.R) : CV S.R :=
  { cv_bool :=
      do_binary_upd lc.cv_f64 rc.cv_f64 (fun a b => !(S.beq a b))
        (do_binary_upd lc.cv_i64 rc.cv_i64 (fun a b => a != b)
          (do_binary_upd lc.cv_u64 rc.cv_u64 (fun a b => a != b)
            (do_binary_upd lc.cv_bool rc.cv_bool (fun a b => a != b) Slot.absent))) }

/-- visit(lt_expression_c). -/
def visit_lt_expression (S : R64sem) (lc rc : CV S.R) : CV S.R :=
  { cv_bool :=
      do_binary_upd lc.cv_f64 rc.cv_f64 S.blt
        (do_binary_upd lc.cv_i64 rc.cv_i64 (fun a b => decide (a < b))
          (do_binary_upd lc.cv_u64 rc.cv_u64 (fun a b => decide (a < b))
            (do_binary_upd lc.cv_bool rc.cv_bool bool_lt Slot.absent))) }

/-- visit(gt_expression_c). -/
def visit_gt_expression (S : R64sem) (lc rc : CV S.R) : CV S.R :=
  { cv_bool :=
      do_binary_upd lc.cv_f64 rc.cv_f64 (fun a b => S.blt b a)
        (do_binary_upd lc.cv_i64 rc.cv_i64 (fun a b => decide (b < a))
          (do_binary_upd lc.cv_u64 rc.cv_u64 (fun a b => decide (b < a))
            (do_binary_upd lc.cv_bool rc.cv_bool bool_gt Slot.absent))) }

/-- visit(le_expression_c). -/
def visit_le_expression (S : R64sem) (lc rc : CV S.R) : CV S.R :=
  { cv_bool :=
      do_binary_upd lc.cv_f64 rc.cv_f64 S.ble
        (do_binary_upd lc.cv_i64 rc.cv_i64 (fun a b => decide (a ≤ b))
          (do_binary_upd lc.cv_u64 rc.cv_u64 (fun a b => decide (a ≤ b))
            (do_binary_upd lc.cv_bool rc.cv_bool bool_le Slot.absent))) }

/-- visit(ge_expression_c). -/
def visit_ge_expression (S : R64sem) (lc rc : CV S.R) : CV S.R :=
  { cv_bool :=
      do_binary_upd lc.cv_f64 rc.cv_f64 (fun a b => S.ble b a)
        (do_binary_upd lc.cv_i64 rc.cv_i64 (fun a b => decide (b ≤ a))
          (do_binary_upd lc.cv_u64 rc.cv_u64 (fun a b => decide (b ≤ a))
            (do_binary_upd lc.cv_bool rc.cv_bool bool_ge Slot.absent))) }

/-- visit(add_expression_c): the three dispatches with their overflow
checks. -/
def visit_add_expression (S : R64sem) (lc rc : CV S.R) : CV S.R :=
  { cv_u64 := CHECK_OVERFLOW_uint64_SUM lc.cv_u64 rc.cv_u64
                (do_binary_upd lc.cv_u64 rc.cv_u64 (fun a b => u64_wrap (a + b)) Slot.absent),
    cv_i64 := CHECK_OVERFLOW_int64_SUM lc.cv_i64 rc.cv_i64
                (do_binary_upd lc.cv_i64 rc.cv_i64 (fun a b => i64_wrap (a + b)) Slot.absent),
    cv_f64 := CHECK_OVERFLOW_real64 S
                (do_binary_upd lc.cv_f64 rc.cv_f64 S.add Slot.absent) }

/-- visit(sub_expression_c). -/
def visit_sub_expression (S : R64sem) (lc rc : CV S.R) : CV S.R :=
  { cv_u64 := CHECK_OVERFLOW_uint64_SUB lc.cv_u64 rc.cv_u64
                (do_binary_upd lc.cv_u64 rc.cv_u64
                  (fun a b => u64_wrap (a + 18446744073709551616 - b)) Slot.absent),
    cv_i64 := CHECK_OVERFLOW_int64_SUB lc.cv_i64 rc.cv_i64
                (do_binary_upd lc.cv_i64 rc.cv_i64 (fun a b => i64_wrap (a - b)) Slot.absent),
    cv_f64 := CHECK_OVERFLOW_real64 S
                (do_binary_upd lc.cv_f64 rc.cv_f64 S.sub Slot.absent) }

/-- The uint64 result slot of a division node: a defined-zero divisor slot
short circuits to an overflow result slot (created even when the dividend
slot is missing); otherwise the ordinary dispatch plus check runs. -/
def div_u64_slot (lc rc : Slot Nat) : Slot Nat :=
  if ISZERO_CVALUE_uint64 rc then Slot.overflow
  else CHECK_OVERFLOW_uint64_DIV lc rc
         (do_binary_upd lc rc (fun a b => a / b) Slot.absent)

/-- The int64 result slot of a division node (`none` on the undefined native
division described at `int64_div_op`). -/
def div_i64_slot (lc rc : Slot Int) : Option (Slot Int) :=
  if ISZERO_CVALUE_int64 rc then some Slot.overflow
  else
    match int64_div_op lc rc with
    | none => none
    | some d => some (CHECK_OVERFLOW_int64_DIV lc rc d)

/-- The real64 result slot of a division node. -/
def div_f64_slot (S : R64sem) (lc rc : Slot S.R) : Slot S.R :=
  if ISZERO_CVALUE_real64 S rc then Slot.overflow
  else CHECK_OVERFLOW_real64 S (do_binary_upd lc rc S.div Slot.absent)

/-- visit(mul_expression_c): the uint64 overflow check divides by the left
operand and can fault (see CHECK_OVERFLOW_uint64_MUL). -/
def visit_mul_expression (S : R64sem) (lc rc : CV S.R) : Option (CV S.R) :=
  match CHECK_OVERFLOW_uint64_MUL lc.cv_u64 rc.cv_u64
          (do_binary_upd lc.cv_u64 rc.cv_u64 (fun a b => u64_wrap (a * b)) Slot.absent) with
  | none => none
  | some u =>
      some { cv_u64 := u,
             cv_i64 := CHECK_OVERFLOW_int64_MUL lc.cv_i64 rc.cv_i64
                         (do_binary_upd lc.cv_i64 rc.cv_i64 (fun a b => i64_wrap (a * b)) Slot.absent),
             cv_f64 := CHECK_OVERFLOW_real64 S
                         (do_binary_upd lc.cv_f64 rc.cv_f64 S.mul Slot.absent) }

/-- visit(div_expression_c): the three per-type dispatches with their
divisor-zero guards. -/
def visit_div_expression (S : R64sem) (lc rc : CV S.R) : Option (CV S.R) :=
  match div_i64_slot lc.cv_i64 rc.cv_i64 with
  | none => none
  | some i =>
      some { cv_u64 := div_u64_slot lc.cv_u64 rc.cv_u64,
             cv_i64 := i,
             cv_f64 := div_f64_slot S lc.cv_f64 rc.cv_f64 }

/-- The uint64 result slot of a MOD node: a defined-zero divisor slot yields a
defined-0 result slot (IEC 61131-3 absorption, created even when the dividend
slot is missing). -/
def mod_u64_slot (lc rc : Slot Nat) : Slot Nat :=
  if ISZERO_CVALUE_uint64 rc then Slot.defined 0
  else CHECK_OVERFLOW_uint64_MOD lc rc
         (do_binary_upd lc rc (fun a b => a % b) Slot.absent)

/-- The int64 result slot of a MOD node (`none` on the undefined native
remainder described at `int64_mod_op`). -/
def mod_i64_slot (lc rc : Slot Int) : Option (Slot Int) :=
  if ISZERO_CVALUE_int64 rc then some (Slot.defined 0)
  else
    match int64_mod_op lc rc with
    | none => none
    | some d => some (CHECK_OVERFLOW_int64_MOD lc rc d)

/-- visit(mod_expression_c): the uint64 and int64 dispatches with their
divisor-zero absorption.  The source performs no real64 dispatch for MOD. -/
def visit_mod_expression (S : R64sem) (lc rc : CV S.R) : Option (CV S.R) :=
  match mod_i64_slot lc.cv_i64 rc.cv_i64 with
  | none => none
  | some i =>
      some { cv_u64 := mod_u64_slot lc.cv_u64 rc.cv_u64, cv_i64 := i }

/-- visit(power_expression_c): a (real64 base, int64 exponent) dispatch, then
a (real64 base, uint64 exponent) dispatch overwriting the first when both
exponent slots are valid, then the real64 overflow check. -/
def visit_power_expression (S : R64sem) (lc rc : CV S.R) : CV S.R :=
  let f1 : Slot S.R :=
    match lc.cv_f64, rc.cv_i64 with
    | Slot.defined a, Slot.defined e => Slot.defined (S.powi a e)
    | _, _ => Slot.absent
  let f2 : Slot S.R :=
    match lc.cv_f64, rc.cv_u64 with
    | Slot.defined a, Slot.defined e => Slot.defined (S.powu a e)
    | _, _ => f1
  { cv_f64 := CHECK_OVERFLOW_real64 S f2 }

/-- visit(neg_expression_c): (int64 negate with check) and (real64 negate with
check). -/
def visit_neg_expression (S : R64sem) (ec : CV S.R) : CV S.R :=
  { cv_i64 := CHECK_OVERFLOW_int64_NEG ec.cv_i64
                (do_unary_upd ec.cv_i64 (fun a => i64_wrap (-a))),
    cv_f64 := CHECK_OVERFLOW_real64 S (do_unary_upd ec.cv_f64 S.neg) }

/-- visit(neg_integer_c): int64 negate with check, then the INT64_MIN special
case: when the uint64 slot of the operand is valid and holds 2^63 (the C source
compares it against (uint64_t)(-INT64_MIN), which evaluates to 2^63 under
twos-complement arithmetic), a fresh int64 slot is created holding INT64_MIN. -/
def visit_neg_integer {R : Type} (ec : CV R) : CV R :=
  let s1 := CHECK_OVERFLOW_int64_NEG ec.cv_i64
              (do_unary_upd ec.cv_i64 (fun a => i64_wrap (-a)))
  let s2 :=
    match ec.cv_u64 with
    | Slot.defined a => if a = 9223372036854775808 then Slot.defined INT64_MIN else s1
    | _ => s1
  { cv_i64 := s2 }

/-- visit(neg_real_c). -/
def visit_neg_real (S : R64sem) (ec : CV S.R) : CV S.R :=
  { cv_f64 := CHECK_OVERFLOW_real64 S (do_unary_upd ec.cv_f64 S.neg) }

/-- visit(not_expression_c): (bool, !) and (uint64, ~); for a < 2^64 the
uint64 complement ~a equals UINT64_MAX - a. -/
def visit_not_expression {R : Type} (ec : CV R) : CV R :=
  { cv_bool := do_unary_upd ec.cv_bool (fun a => !a),
    cv_u64  := do_unary_upd ec.cv_u64 (fun a => UINT64_MAX - a) }

/-- visit(integer_literal_c): copy the int64 and uint64 slots of the child up when
valid (DO_UNARY_OPER with the empty operation). -/
def visit_integer_literal {R : Type} (ec : CV R) : CV R :=
  { cv_i64 := do_unary_upd ec.cv_i64 (fun a => a),
    cv_u64 := do_unary_upd ec.cv_u64 (fun a => a) }

/-- visit(real_literal_c): copy the real64 slot of the child up when valid. -/
def visit_real_literal (S : R64sem) (ec : CV S.R) : CV S.R :=
  { cv_f64 := do_unary_upd ec.cv_f64 (fun a => a) }

/-- visit(boolean_literal_c): copy the bool slot of the child up when valid. -/
def visit_boolean_literal {R : Type} (ec : CV R) : CV R :=
  { cv_bool := do_unary_upd ec.cv_bool (fun a => a) }

/-- Binary operator node kinds of B 3.1 handled by the folder. -/
inductive BinOp where
  | or_op | xor_op | and_op
  | equ | notequ | lt | gt | le | ge
  | add | sub | mul | div | mod | power
deriving DecidableEq

/-- Expression AST, each node carrying its four constant-value slots (all
absent as produced by the parser).  `integer n` stands for an
integer_c / binary_integer_c / octal_integer_c / hex_integer_c literal of
magnitude n; `real v ovf` for a real_c literal whose extract_real_value
result is (v, ovf); `nonconst` for any non-literal leaf (variable, function
call, ...), which the folder visits without annotating. -/
inductive AExp (R : Type) where
  | integer (n : Nat) (cv : CV R)
  | real (v : R) (ovf : Bool) (cv : CV R)
  | boolean_true (cv : CV R)
  | boolean_false (cv : CV R)
  | nonconst (cv : CV R)
  | bit_string_literal (cv : CV R)
  | neg_integer (e : AExp R) (cv : CV R)
  | neg_real (e : AExp R) (cv : CV R)
  | neg_expression (e : AExp R) (cv : CV R)
  | not_expression (e : AExp R) (cv : CV R)
  | integer_literal (e : AExp R) (cv : CV R)
  | real_literal (e : AExp R) (cv : CV R)
  | boolean_literal (e : AExp R) (cv : CV R)
  | bin (k : BinOp) (l r : AExp R) (cv : CV R)
deriving DecidableEq

/-- Constant-value record attached to a node. -/
def AExp.cv {R : Type} : AExp R → CV R
  | .integer _ c => c
  | .real _ _ c => c
  | .boolean_true c => c
  | .boolean_false c => c
  | .nonconst c => c
  | .bit_string_literal c => c
  | .neg_integer _ c => c
  | .neg_real _ c => c
  | .neg_expression _ c => c
  | .not_expression _ c => c
  | .integer_literal _ c => c
  | .real_literal _ c => c
  | .boolean_literal _ c => c
  | .bin _ _ _ c => c

/-- Dispatch a binary operator node to its visit function. -/
def visit_bin (S : R64sem) : BinOp → CV S.R → CV S.R → Option (CV S.R)
  | BinOp.or_op, lc, rc => some (visit_or_expression lc rc)
  | BinOp.xor_op, lc, rc => some (visit_xor_expression lc rc)
  | BinOp.and_op, lc, rc => some (visit_and_expression lc rc)
  | BinOp.equ, lc, rc => some (visit_equ_expression S lc rc)
  | BinOp.notequ, lc, rc => some (visit_notequ_expression S lc rc)
  | BinOp.lt, lc, rc => some (visit_lt_expression S lc rc)
  | BinOp.gt, lc, rc => some (visit_gt_expression S lc rc)
  | BinOp.le, lc, rc => some (visit_le_expression S lc rc)
  | BinOp.ge, lc, rc => some (visit_ge_expression S lc rc)
  | BinOp.add, lc, rc => some (visit_add_expression S lc rc)
  | BinOp.sub, lc, rc => some (visit_sub_expression S lc rc)
  | BinOp.mul, lc, rc => visit_mul_expression S lc rc
  | BinOp.div, lc, rc => visit_div_expression S lc rc
  | BinOp.mod, lc, rc => visit_mod_expression S lc rc
  | BinOp.power, lc, rc => some (visit_power_expression S lc rc)

/-- The constant-folding pass: strict post-order traversal recomputing every
annotation of every node from the freshly computed annotations of its children.  Like the
C visitor, it never reads a pre-existing annotation of the input tree (note
the wildcard cv patterns).  A fault (`none`) models the undefined-behaviour
division instructions described above. -/
def fold (S : R64sem) : AExp S.R → Option (AExp S.R)
  | AExp.integer n _ => some (AExp.integer n (visit_integer n))
  | AExp.real v ovf _ => some (AExp.real v ovf (visit_real S v ovf))
  | AExp.boolean_true _ => some (AExp.boolean_true visit_boolean_true)
  | AExp.boolean_false _ => some (AExp.boolean_false visit_boolean_false)
  | AExp.nonconst _ => some (AExp.nonconst {})
  | AExp.bit_string_literal _ => some (AExp.bit_string_literal {})
  | AExp.neg_integer e _ =>
      match fold S e with
      | none => none
      | some e2 => some (AExp.neg_integer e2 (visit_neg_integer e2.cv))
  | AExp.neg_real e _ =>
      match fold S e with
      | none => none
      | some e2 => some (AExp.neg_real e2 (visit_neg_real S e2.cv))
  | AExp.neg_expression e _ =>
      match fold S e with
      | none => none
      | some e2 => some (AExp.neg_expression e2 (visit_neg_expression S e2.cv))
  | AExp.not_expression e _ =>
      match fold S e with
      | none => none
      | some e2 => some (AExp.not_expression e2 (visit_not_expression e2.cv))
  | AExp.integer_literal e _ =>
      match fold S e with
      | none => none
      | some e2 => some (AExp.integer_literal e2 (visit_integer_literal e2.cv))
  | AExp.real_literal e _ =>
      match fold S e with
      | none => none
      | some e2 => some (AExp.real_literal e2 (visit_real_literal S e2.cv))
  | AExp.boolean_literal e _ =>
      match fold S e with
      | none => none
      | some e2 => some (AExp.boolean_literal e2 (visit_boolean_literal e2.cv))
  | AExp.bin k l r _ =>
      match fold S l with
      | none => none
      | some l2 =>
          match fold S r with
          | none => none
          | some r2 =>
              match visit_bin S k l2.cv r2.cv with
              | none => none
              | some c => some (AExp.bin k l2 r2 c)

/-- Erase every annotation of a tree (the AST as the parser produced it). -/
def strip {R : Type} : AExp R → AExp R
  | AExp.integer n _ => AExp.integer n {}
  | AExp.real v ovf _ => AExp.real v ovf {}
  | AExp.boolean_true _ => AExp.boolean_true {}
  | AExp.boolean_false _ => AExp.boolean_false {}
  | AExp.nonconst _ => AExp.nonconst {}
  | AExp.bit_string_literal _ => AExp.bit_string_literal {}
  | AExp.neg_integer e _ => AExp.neg_integer (strip e) {}
  | AExp.neg_real e _ => AExp.neg_real (strip e) {}
  | AExp.neg_expression e _ => AExp.neg_expression (strip e) {}
  | AExp.not_expression e _ => AExp.not_expression (strip e) {}
  | AExp.integer_literal e _ => AExp.integer_literal (strip e) {}
  | AExp.real_literal e _ => AExp.real_literal (strip e) {}
  | AExp.boolean_literal e _ => AExp.boolean_literal (strip e) {}
  | AExp.bin k l r _ => AExp.bin k (strip l) (strip r) {}

/-- Nodes whose uint64 result slot comes from a bitwise dispatch with no
overflow path: OR, XOR, AND, and NOT. -/
def isLogicNode {R : Type} : AExp R → Prop
  | AExp.bin BinOp.or_op _ _ _ => True
  | AExp.bin BinOp.xor_op _ _ _ => True
  | AExp.bin BinOp.and_op _ _ _ => True
  | AExp.not_expression _ _ => True
  | _ => False

/-- A predicate holds at every node of a tree. -/
def AllNodes {R : Type} (P : AExp R → Prop) : AExp R → Prop
  | t@(AExp.integer _ _) => P t
  | t@(AExp.real _ _ _) => P t
  | t@(AExp.boolean_true _) => P t
  | t@(AExp.boolean_false _) => P t
  | t@(AExp.nonconst _) => P t
  | t@(AExp.bit_string_literal _) => P t
  | t@(AExp.neg_integer e _) => P t ∧ AllNodes P e
  | t@(AExp.neg_real e _) => P t ∧ AllNodes P e
  | t@(AExp.neg_expression e _) => P t ∧ AllNodes P e
  | t@(AExp.not_expression e _) => P t ∧ AllNodes P e
  | t@(AExp.integer_literal e _) => P t ∧ AllNodes P e
  | t@(AExp.real_literal e _) => P t ∧ AllNodes P e
  | t@(AExp.boolean_literal e _) => P t ∧ AllNodes P e
  | t@(AExp.bin _ l r _) => P t ∧ AllNodes P l ∧ AllNodes P r

/-- Both slots of a matching pair are defined (VALID_CVALUE holds for both
operands of one (T_in -> T_out) dispatch). -/
def both_defined {α : Type} (l r : Slot α) : Prop :=
  (∃ a, l = Slot.defined a) ∧ (∃ b, r = Slot.defined b)

/-- Some input type of the four-way comparison dispatch has both operand
slots defined. -/
def some_pair_defined (S : R64sem) (lc rc : CV S.R) : Prop :=
  both_defined lc.cv_bool rc.cv_bool ∨ both_defined lc.cv_u64 rc.cv_u64 ∨
  both_defined lc.cv_i64 rc.cv_i64 ∨ both_defined lc.cv_f64 rc.cv_f64

/-- Trivial real64 semantics used for concrete evaluations (no claim below
depends on the value of a real-typed result). -/
@[reducible] def S0 : R64sem :=
  { R := Unit, zero := (), beq := fun _ _ => true, blt := fun _ _ => false,
    ble := fun _ _ => true, add := fun _ _ => (), sub := fun _ _ => (),
    mul := fun _ _ => (), div := fun _ _ => (), neg := fun _ => (),
    powi := fun _ _ => (), powu := fun _ _ => (),
    is_nan_or_inf := fun _ => false }

/-- Source fragment `0 * 5`. -/
def c2_input : AExp Unit :=
  AExp.bin BinOp.mul (AExp.integer 0 {}) (AExp.integer 5 {}) {}

/-- Source fragment `1 * 5`. -/
def c2_control_input : AExp Unit :=
  AExp.bin BinOp.mul (AExp.integer 1 {}) (AExp.integer 5 {}) {}

/-- Folded form of `1 * 5`. -/
def c2_control_output : AExp Unit :=
  AExp.bin BinOp.mul
    (AExp.integer 1 { cv_u64 := Slot.defined 1, cv_i64 := Slot.defined 1 })
    (AExp.integer 5 { cv_u64 := Slot.defined 5, cv_i64 := Slot.defined 5 })
    { cv_u64 := Slot.defined 5, cv_i64 := Slot.defined 5 }

/-- Source fragment `18446744073709551615 * 2` (a genuine uint64 multiply
overflow with a non-zero left operand). -/
def c2_ovf_input : AExp Unit :=
  AExp.bin BinOp.mul (AExp.integer 18446744073709551615 {}) (AExp.integer 2 {}) {}

/-- Folded form of `18446744073709551615 * 2`: the uint64 result slot is
marked overflow; the int64 slot of the left literal itself overflowed, so no int64
dispatch happens. -/
def c2_ovf_output : AExp Unit :=
  AExp.bin BinOp.mul
    (AExp.integer 18446744073709551615
      { cv_u64 := Slot.defined 18446744073709551615, cv_i64 := Slot.overflow })
    (AExp.integer 2 { cv_u64 := Slot.defined 2, cv_i64 := Slot.defined 2 })
    { cv_u64 := Slot.overflow }

/-- Source fragment `5 / 0`. -/
def c3_input : AExp Unit :=
  AExp.bin BinOp.div (AExp.integer 5 {}) (AExp.integer 0 {}) {}

/-- Folded form of `5 / 0`: both integer result slots overflow, bool and
real64 slots absent. -/
def c3_output : AExp Unit :=
  AExp.bin BinOp.div
    (AExp.integer 5 { cv_u64 := Slot.defined 5, cv_i64 := Slot.defined 5 })
    (AExp.integer 0 { cv_u64 := Slot.defined 0, cv_i64 := Slot.defined 0 })
    { cv_u64 := Slot.overflow, cv_i64 := Slot.overflow }

/-- Source fragment `5 MOD 0`. -/
def c4_mod_zero_input : AExp Unit :=
  AExp.bin BinOp.mod (AExp.integer 5 {}) (AExp.integer 0 {}) {}

/-- Folded form of `5 MOD 0`: both integer result slots defined 0. -/
def c4_mod_zero_output : AExp Unit :=
  AExp.bin BinOp.mod
    (AExp.integer 5 { cv_u64 := Slot.defined 5, cv_i64 := Slot.defined 5 })
    (AExp.integer 0 { cv_u64 := Slot.defined 0, cv_i64 := Slot.defined 0 })
    { cv_u64 := Slot.defined 0, cv_i64 := Slot.defined 0 }

/-- Source fragment `7 MOD 3`. -/
def c4_mod_input : AExp Unit :=
  AExp.bin BinOp.mod (AExp.integer 7 {}) (AExp.integer 3 {}) {}

/-- Folded form of `7 MOD 3`. -/
def c4_mod_output : AExp Unit :=
  AExp.bin BinOp.mod
    (AExp.integer 7 { cv_u64 := Slot.defined 7, cv_i64 := Slot.defined 7 })
    (AExp.integer 3 { cv_u64 := Slot.defined 3, cv_i64 := Slot.defined 3 })
    { cv_u64 := Slot.defined 1, cv_i64 := Slot.defined 1 }

/-- Source fragment `(-9223372036854775808) MOD (-1)`, the signed MOD corner
case. -/
def c4_mod_min_input : AExp Unit :=
  AExp.bin BinOp.mod
    (AExp.neg_integer (AExp.integer 9223372036854775808 {}) {})
    (AExp.neg_integer (AExp.integer 1 {}) {}) {}

/-- Source fragment `-9223372036854775808` (decimal). -/
def c5_input : AExp Unit :=
  AExp.neg_integer (AExp.integer 9223372036854775808 {}) {}

/-- Folded form of the positive literal 9223372036854775808: int64 overflows,
uint64 is defined 2^63. -/
def c5_child_output : AExp Unit :=
  AExp.integer 9223372036854775808
    { cv_u64 := Slot.defined 9223372036854775808, cv_i64 := Slot.overflow }

/-- Folded form of `-9223372036854775808`: the int64 slot is defined
INT64_MIN via the uint64 value of the operand; no other slot is created. -/
def c5_output : AExp Unit :=
  AExp.neg_integer c5_child_output { cv_i64 := Slot.defined INT64_MIN }

/-- Source fragment `2 + 3`. -/
def c6_input : AExp Unit :=
  AExp.bin BinOp.add (AExp.integer 2 {}) (AExp.integer 3 {}) {}

/-- Folded form of `2 + 3`. -/
def c6_output : AExp Unit :=
  AExp.bin BinOp.add
    (AExp.integer 2 { cv_u64 := Slot.defined 2, cv_i64 := Slot.defined 2 })
    (AExp.integer 3 { cv_u64 := Slot.defined 3, cv_i64 := Slot.defined 3 })
    { cv_u64 := Slot.defined 5, cv_i64 := Slot.defined 5 }

/-- Source fragment `x / 0` with a non-constant dividend x. -/
def c7_input : AExp Unit :=
  AExp.bin BinOp.div (AExp.nonconst {}) (AExp.integer 0 {}) {}

/-- Folded form of `x / 0`: the divisor-zero branches create overflow result
slots although the dividend has no defined slot of any type. -/
def c7_output : AExp Unit :=
  AExp.bin BinOp.div
    (AExp.nonconst {})
    (AExp.integer 0 { cv_u64 := Slot.defined 0, cv_i64 := Slot.defined 0 })
    { cv_u64 := Slot.overflow, cv_i64 := Slot.overflow }

/-- Source fragment `5.0 MOD 3.0` (two real literals; their extracted values
are irrelevant to the claim, which is about slot creation). -/
def c8_input : AExp Unit :=
  AExp.bin BinOp.mod (AExp.real () false {}) (AExp.real () false {}) {}

/-- Folded form of a real literal operand: its real64 slot is defined. -/
def c8_operand_output : AExp Unit :=
  AExp.real () false { cv_f64 := Slot.defined () }

/-- Folded form of `5.0 MOD 3.0`: both operands have defined real64 slots,
yet the MOD node receives no real64 result slot. -/
def c8_output : AExp Unit :=
  AExp.bin BinOp.mod c8_operand_output c8_operand_output {}

end ConstantFolding
namespace ConstantFolding

theorem fold_strip (S : R64sem) : ∀ t : AExp S.R, fold S (strip t) = fold S t := by
  intro t
  induction t with
  | integer n cv => rfl
  | real v ovf cv => rfl
  | boolean_true cv => rfl
  | boolean_false cv => rfl
  | nonconst cv => rfl
  | bit_string_literal cv => rfl
  | neg_integer e cv ih => simp only [strip, fold, ih]
  | neg_real e cv ih => simp only [strip, fold, ih]
  | neg_expression e cv ih => simp only [strip, fold, ih]
  | not_expression e cv ih => simp only [strip, fold, ih]
  | integer_literal e cv ih => simp only [strip, fold, ih]
  | real_literal e cv ih => simp only [strip, fold, ih]
  | boolean_literal e cv ih => simp only [strip, fold, ih]
  | bin k l r cv ihl ihr => simp only [strip, fold, ihl, ihr]

theorem strip_fold (S : R64sem) : ∀ t t2 : AExp S.R, fold S t = some t2 → strip t2 = strip t := by
  intro t
  induction t with
  | integer n cv => intro t2 h; simp only [fold, Option.some.injEq] at h; subst h; rfl
  | real v ovf cv => intro t2 h; simp only [fold, Option.some.injEq] at h; subst h; rfl
  | boolean_true cv => intro t2 h; simp only [fold, Option.some.injEq] at h; subst h; rfl
  | boolean_false cv => intro t2 h; simp only [fold, Option.some.injEq] at h; subst h; rfl
  | nonconst cv => intro t2 h; simp only [fold, Option.some.injEq] at h; subst h; rfl
  | bit_string_literal cv => intro t2 h; simp only [fold, Option.some.injEq] at h; subst h; rfl
  | neg_integer e cv ih =>
      intro t2 h
      simp only [fold] at h
      cases he : fold S e with
      | none => rw [he] at h; exact Option.noConfusion h
      | some e2 =>
          rw [he] at h
          simp only [Option.some.injEq] at h
          subst h
          simp only [strip]
          rw [ih e2 he]
  | neg_real e cv ih =>
      intro t2 h
      simp only [fold] at h
      cases he : fold S e with
      | none => rw [he] at h; exact Option.noConfusion h
      | some e2 =>
          rw [he] at h
          simp only [Option.some.injEq] at h
          subst h
          simp only [strip]
          rw [ih e2 he]
  | neg_expression e cv ih =>
      intro t2 h
      simp only [fold] at h
      cases he : fold S e with
      | none => rw [he] at h; exact Option.noConfusion h
      | some e2 =>
          rw [he] at h
          simp only [Option.some.injEq] at h
          subst h
          simp only [strip]
          rw [ih e2 he]
  | not_expression e cv ih =>
      intro t2 h
      simp only [fold] at h
      cases he : fold S e with
      | none => rw [he] at h; exact Option.noConfusion h
      | some e2 =>
          rw [he] at h
          simp only [Option.some.injEq] at h
          subst h
          simp only [strip]
          rw [ih e2 he]
  | integer_literal e cv ih =>
      intro t2 h
      simp only [fold] at h
      cases he : fold S e with
      | none => rw [he] at h; exact Option.noConfusion h
      | some e2 =>
          rw [he] at h
          simp only [Option.some.injEq] at h
          subst h
          simp only [strip]
          rw [ih e2 he]
  | real_literal e cv ih =>
      intro t2 h
      simp only [fold] at h
      cases he : fold S e with
      | none => rw [he] at h; exact Option.noConfusion h
      | some e2 =>
          rw [he] at h
          simp only [Option.some.injEq] at h
          subst h
          simp only [strip]
          rw [ih e2 he]
  | boolean_literal e cv ih =>
      intro t2 h
      simp only [fold] at h
      cases he : fold S e with
      | none => rw [he] at h; exact Option.noConfusion h
      | some e2 =>
          rw [he] at h
          simp only [Option.some.injEq] at h
          subst h
          simp only [strip]
          rw [ih e2 he]
  | bin k l r cv ihl ihr =>
      intro t2 h
      simp only [fold] at h
      cases hl : fold S l with
      | none => rw [hl] at h; exact Option.noConfusion h
      | some l2 =>
          rw [hl] at h
          cases hr : fold S r with
          | none => rw [hr] at h; exact Option.noConfusion h
          | some r2 =>
              rw [hr] at h
              cases hc : visit_bin S k l2.cv r2.cv with
              | none => simp only [hc] at h; exact Option.noConfusion h
              | some c =>
                  simp only [hc, Option.some.injEq] at h
                  subst h
                  simp only [strip]
                  rw [ihl l2 hl, ihr r2 hr]

/-- C6 (idempotence): the visitor never reads a pre-existing annotation (it
recomputes every slot from the freshly folded children), so running the
folder a second time over an already-folded tree reproduces exactly the same
annotation at every node. -/
theorem C6_idempotence : ∀ (S : R64sem) (t t2 : AExp S.R),
    fold S t = some t2 → fold S t2 = some t2 := by
  intro S t t2 h
  have h1 : strip t2 = strip t := strip_fold S t t2 h
  calc fold S t2 = fold S (strip t2) := (fold_strip S t2).symm
    _ = fold S (strip t) := by rw [h1]
    _ = fold S t := fold_strip S t
    _ = some t2 := h

theorem C6_idempotence_witness : fold S0 c6_output = some c6_output :=
  C6_idempotence S0 c6_input c6_output (by decide)

end ConstantFolding
namespace ConstantFolding

theorem do_binary_upd_ne_absent {α β : Type} {l r : Slot α} {op : α → α → β} {old : Slot β}
    (h : do_binary_upd l r op old ≠ Slot.absent) : both_defined l r ∨ old ≠ Slot.absent := by
  cases l <;> cases r <;> simp_all [do_binary_upd, both_defined]

theorem do_binary_upd_ne_overflow {α β : Type} {l r : Slot α} {op : α → α → β} {old : Slot β}
    (h : old ≠ Slot.overflow) : do_binary_upd l r op old ≠ Slot.overflow := by
  cases l <;> cases r <;> simp_all [do_binary_upd]

theorem do_unary_upd_ne_overflow {α β : Type} {s : Slot α} {op : α → β} :
    do_unary_upd s op ≠ Slot.overflow := by
  cases s <;> simp [do_unary_upd]

/-- C2: the uint64 multiply overflow check divides UINT64_MAX by the left
operand with no zero guard, so folding the constant `0 * 5` executes an
unsigned division by zero (modelled as the fault `none`) instead of leaving
the uint64 slot defined with value 0; with a non-zero left operand the check
behaves as the claim states (`1 * 5` stays defined 5, and
`18446744073709551615 * 2` is marked overflow). -/
theorem C2_uint64_mul_check_divides_by_zero :
    fold S0 c2_input = none ∧
    fold S0 c2_control_input = some c2_control_output ∧
    c2_control_output.cv.cv_u64 = Slot.defined 5 ∧
    fold S0 c2_ovf_input = some c2_ovf_output ∧
    c2_ovf_output.cv.cv_u64 = Slot.overflow := by decide

/-- C4: evaluation of the MOD visitor: `5 MOD 0` leaves both integer result
slots defined 0 and `7 MOD 3` yields the IEC value 7 - (7/3)*3 = 1, as the
claim states; but at the claimed overflow corner `INT64_MIN MOD -1` the
visitor executes the native remainder before CHECK_OVERFLOW_int64_MOD can
mark the slot, which is undefined behaviour in C (a trap on x86-64), modelled
as the fault `none` instead of an overflow-marked slot. -/
theorem C4_mod_eval :
    fold S0 c4_mod_zero_input = some c4_mod_zero_output ∧
    c4_mod_zero_output.cv.cv_u64 = Slot.defined 0 ∧
    c4_mod_zero_output.cv.cv_i64 = Slot.defined 0 ∧
    fold S0 c4_mod_input = some c4_mod_output ∧
    c4_mod_output.cv.cv_i64 = Slot.defined (7 - Int.tdiv 7 3 * 3) ∧
    fold S0 c4_mod_min_input = none := by decide

/-- C5: folding the decimal expression `-9223372036854775808` defines the
int64 slot of the negation node with INT64_MIN, detected via the defined
uint64 slot of the operand literal (value 2^63), although the int64 slot of
the operand itself is
overflow. -/
theorem C5_negation_corner :
    fold S0 c5_input = some c5_output ∧
    c5_output.cv.cv_i64 = Slot.defined INT64_MIN ∧
    c5_child_output.cv.cv_i64 = Slot.overflow ∧
    c5_child_output.cv.cv_u64 = Slot.defined 9223372036854775808 := by decide

/-- C9 counterexample: the claim says the root negation node of
`-9223372036854775808` has cv_u64 status overflow, but the neg_integer visit
never touches the uint64 slot of the node: after folding it is absent
(undefined), not overflow. -/
theorem C9_root_u64_counterexample :
    fold S0 c5_input = some c5_output ∧
    c5_output.cv.cv_u64 = Slot.absent ∧
    (Slot.absent : Slot Nat) ≠ Slot.overflow := by decide

/-- C9 amended: for the expression `-9223372036854775808` (decimal), the root
cv_u64 slot of the root negation node is undefined (absent) after folding, as are
cv_bool and cv_f64, while cv_i64 is defined INT64_MIN. -/
theorem C9_amended_root_slots :
    fold S0 c5_input = some c5_output ∧
    c5_output.cv.cv_u64 = Slot.absent ∧
    c5_output.cv.cv_bool = Slot.absent ∧
    c5_output.cv.cv_f64 = Slot.absent ∧
    c5_output.cv.cv_i64 = Slot.defined INT64_MIN := by decide

/-- C3: for a division node, every type whose divisor slot is defined 0 gets
an overflow-marked result slot; the example `5 / 0` folds to cv_u64 =
overflow, cv_i64 = overflow, with cv_bool and cv_f64 undefined. -/
theorem C3_div_by_zero_marking :
    (∀ (S : R64sem) (lc rc c : CV S.R), visit_div_expression S lc rc = some c →
       (rc.cv_u64 = Slot.defined 0 → c.cv_u64 = Slot.overflow) ∧
       (rc.cv_i64 = Slot.defined 0 → c.cv_i64 = Slot.overflow) ∧
       (∀ z, rc.cv_f64 = Slot.defined z → S.beq z S.zero = true → c.cv_f64 = Slot.overflow)) ∧
    fold S0 c3_input = some c3_output ∧
    c3_output.cv.cv_u64 = Slot.overflow ∧
    c3_output.cv.cv_i64 = Slot.overflow ∧
    c3_output.cv.cv_bool = Slot.absent ∧
    c3_output.cv.cv_f64 = Slot.absent := by
  constructor
  · intro S lc rc c h
    rcases hi : div_i64_slot lc.cv_i64 rc.cv_i64 with _ | islot
    · simp only [visit_div_expression, hi] at h
      exact Option.noConfusion h
    · simp only [visit_div_expression, hi, Option.some.injEq] at h
      subst h
      refine ⟨?_, ?_, ?_⟩
      · intro hz
        simp [div_u64_slot, ISZERO_CVALUE_uint64, hz]
      · intro hz
        rw [hz] at hi
        simp [div_i64_slot, ISZERO_CVALUE_int64] at hi
        exact hi.symm
      · intro z hz hb
        simp [div_f64_slot, ISZERO_CVALUE_real64, hz, hb]
  · refine ⟨by decide, by decide, by decide, by decide, by decide⟩

theorem C3_div_by_zero_marking_witness :
    ({ cv_u64 := Slot.overflow, cv_i64 := Slot.overflow } : CV Unit).cv_u64 = Slot.overflow :=
  (C3_div_by_zero_marking.1 S0 (visit_integer 5) (visit_integer 0)
     { cv_u64 := Slot.overflow, cv_i64 := Slot.overflow } (by decide)).1 (by decide)

/-- C8 counterexample: both operands of `5.0 MOD 3.0` fold with defined
real64 slots, yet the real64 slot of the MOD node is absent: the mod visit does
not perform the (f64 -> f64) dispatch the claim asserts. -/
theorem C8_mod_f64_counterexample :
    fold S0 c8_input = some c8_output ∧
    c8_operand_output.cv.cv_f64 = Slot.defined () ∧
    c8_output.cv.cv_f64 = Slot.absent := by decide

/-- C8 amended: a MOD node dispatches only the two integer transfer operators
(u64 -> u64) and (i64 -> i64), with the divisor-zero absorption; unlike
division it performs no (f64 -> f64) dispatch, so its real64 (and bool) slot
is never created, even when both operands have defined real64 slots. -/
theorem C8_mod_dispatch_amended :
    ∀ (S : R64sem) (lc rc c : CV S.R), visit_mod_expression S lc rc = some c →
      c.cv_f64 = Slot.absent ∧ c.cv_bool = Slot.absent ∧
      (rc.cv_u64 = Slot.defined 0 → c.cv_u64 = Slot.defined 0) ∧
      (rc.cv_i64 = Slot.defined 0 → c.cv_i64 = Slot.defined 0) ∧
      (∀ a b, lc.cv_u64 = Slot.defined a → rc.cv_u64 = Slot.defined b → b ≠ 0 →
        c.cv_u64 = Slot.defined (a % b)) ∧
      (∀ a b, lc.cv_i64 = Slot.defined a → rc.cv_i64 = Slot.defined b → b ≠ 0 →
        ¬(a = INT64_MIN ∧ b = -1) → c.cv_i64 = Slot.defined (Int.tmod a b)) := by
  intro S lc rc c h
  rcases hi : mod_i64_slot lc.cv_i64 rc.cv_i64 with _ | islot
  · simp only [visit_mod_expression, hi] at h
    exact Option.noConfusion h
  · simp only [visit_mod_expression, hi, Option.some.injEq] at h
    subst h
    refine ⟨rfl, rfl, ?_, ?_, ?_, ?_⟩
    · intro hz
      simp [mod_u64_slot, ISZERO_CVALUE_uint64, hz]
    · intro hz
      rw [hz] at hi
      simp [mod_i64_slot, ISZERO_CVALUE_int64] at hi
      exact hi.symm
    · intro a b ha hb hbne
      simp [mod_u64_slot, ISZERO_CVALUE_uint64, ha, hb, hbne, do_binary_upd,
            CHECK_OVERFLOW_uint64_MOD]
    · intro a b ha hb hbne hcorner
      rw [ha, hb] at hi
      simp [mod_i64_slot, ISZERO_CVALUE_int64, int64_mod_op, CHECK_OVERFLOW_int64_MOD,
            hbne, hcorner] at hi
      exact hi.symm

theorem C8_mod_dispatch_amended_witness :
    ({} : CV Unit).cv_f64 = Slot.absent :=
  (C8_mod_dispatch_amended S0 { cv_f64 := Slot.defined () } { cv_f64 := Slot.defined () }
     {} (by decide)).1

end ConstantFolding
namespace ConstantFolding

theorem do_binary_first_ne_absent {α β : Type} {l r : Slot α} {op : α → α → β}
    (h : do_binary_upd l r op Slot.absent ≠ Slot.absent) : both_defined l r :=
  (do_binary_upd_ne_absent h).resolve_right (fun hh => hh rfl)

theorem CHECK_OVERFLOW_uint64_SUM_ne_absent {a b res : Slot Nat}
    (h : CHECK_OVERFLOW_uint64_SUM a b res ≠ Slot.absent) : res ≠ Slot.absent := by
  cases res <;> cases a <;> cases b <;> simp_all [CHECK_OVERFLOW_uint64_SUM]

theorem CHECK_OVERFLOW_uint64_SUB_ne_absent {a b res : Slot Nat}
    (h : CHECK_OVERFLOW_uint64_SUB a b res ≠ Slot.absent) : res ≠ Slot.absent := by
  cases res <;> cases a <;> cases b <;> simp_all [CHECK_OVERFLOW_uint64_SUB]

theorem CHECK_OVERFLOW_uint64_DIV_ne_absent {a b res : Slot Nat}
    (h : CHECK_OVERFLOW_uint64_DIV a b res ≠ Slot.absent) : res ≠ Slot.absent := by
  cases res <;> cases a <;> cases b <;> simp_all [CHECK_OVERFLOW_uint64_DIV]

theorem CHECK_OVERFLOW_uint64_MOD_ne_absent {a b res : Slot Nat}
    (h : CHECK_OVERFLOW_uint64_MOD a b res ≠ Slot.absent) : res ≠ Slot.absent := by
  cases res <;> cases a <;> cases b <;> simp_all [CHECK_OVERFLOW_uint64_MOD]

theorem CHECK_OVERFLOW_uint64_MUL_ne_absent {a b res u : Slot Nat}
    (h : CHECK_OVERFLOW_uint64_MUL a b res = some u) (hu : u ≠ Slot.absent) :
    res ≠ Slot.absent := by
  cases res <;> cases a <;> cases b <;> simp_all [CHECK_OVERFLOW_uint64_MUL]

theorem CHECK_OVERFLOW_int64_SUM_ne_absent {a b res : Slot Int}
    (h : CHECK_OVERFLOW_int64_SUM a b res ≠ Slot.absent) : res ≠ Slot.absent := by
  cases res <;> cases a <;> cases b <;> simp_all [CHECK_OVERFLOW_int64_SUM]

theorem CHECK_OVERFLOW_int64_SUB_ne_absent {a b res : Slot Int}
    (h : CHECK_OVERFLOW_int64_SUB a b res ≠ Slot.absent) : res ≠ Slot.absent := by
  cases res <;> cases a <;> cases b <;> simp_all [CHECK_OVERFLOW_int64_SUB]

theorem CHECK_OVERFLOW_int64_MUL_ne_absent {a b res : Slot Int}
    (h : CHECK_OVERFLOW_int64_MUL a b res ≠ Slot.absent) : res ≠ Slot.absent := by
  cases res <;> cases a <;> cases b <;> simp_all [CHECK_OVERFLOW_int64_MUL]

theorem CHECK_OVERFLOW_int64_DIV_ne_absent {a b res : Slot Int}
    (h : CHECK_OVERFLOW_int64_DIV a b res ≠ Slot.absent) : res ≠ Slot.absent := by
  cases res <;> cases a <;> cases b <;> simp_all [CHECK_OVERFLOW_int64_DIV]

theorem CHECK_OVERFLOW_int64_MOD_ne_absent {a b res : Slot Int}
    (h : CHECK_OVERFLOW_int64_MOD a b res ≠ Slot.absent) : res ≠ Slot.absent := by
  cases res <;> cases a <;> cases b <;> simp_all [CHECK_OVERFLOW_int64_MOD]

theorem CHECK_OVERFLOW_real64_ne_absent {S : R64sem} {res : Slot S.R}
    (h : CHECK_OVERFLOW_real64 S res ≠ Slot.absent) : res ≠ Slot.absent := by
  cases res <;> simp_all [CHECK_OVERFLOW_real64]

theorem int64_div_op_ne_absent {a b d : Slot Int}
    (h : int64_div_op a b = some d) (hd : d ≠ Slot.absent) : both_defined a b := by
  cases a <;> cases b <;> simp_all [int64_div_op, both_defined]

theorem int64_mod_op_ne_absent {a b d : Slot Int}
    (h : int64_mod_op a b = some d) (hd : d ≠ Slot.absent) : both_defined a b := by
  cases a <;> cases b <;> simp_all [int64_mod_op, both_defined]

theorem cmp_chain_ne_absent (S : R64sem) {lc rc : CV S.R}
    {bop : Bool → Bool → Bool} {uop : Nat → Nat → Bool}
    {iop : Int → Int → Bool} {fop : S.R → S.R → Bool}
    (h : do_binary_upd lc.cv_f64 rc.cv_f64 fop
          (do_binary_upd lc.cv_i64 rc.cv_i64 iop
            (do_binary_upd lc.cv_u64 rc.cv_u64 uop
              (do_binary_upd lc.cv_bool rc.cv_bool bop Slot.absent))) ≠ Slot.absent) :
    some_pair_defined S lc rc := by
  rcases do_binary_upd_ne_absent h with hf | h2
  · exact Or.inr (Or.inr (Or.inr hf))
  rcases do_binary_upd_ne_absent h2 with hi | h3
  · exact Or.inr (Or.inr (Or.inl hi))
  rcases do_binary_upd_ne_absent h3 with hu | h4
  · exact Or.inr (Or.inl hu)
  exact Or.inl (do_binary_first_ne_absent h4)

/-- C7 counterexample: for the division node `x / 0` with a non-constant
dividend, the uint64 slot of the dividend is absent yet the node receives a
uint64 (and int64) result slot, marked overflow: the (u64 -> u64) dispatch of
division does create a result slot although one operand slot is absent,
contrary to the claim. -/
theorem C7_frame_rule_counterexample :
    fold S0 c7_input = some c7_output ∧
    (AExp.nonconst ({} : CV Unit)).cv.cv_u64 = Slot.absent ∧
    c7_output.cv.cv_u64 = Slot.overflow ∧
    c7_output.cv.cv_u64 ≠ Slot.absent := by decide

/-- C7 amended: for every binary operator dispatch except the divisor-zero
branches of division and MOD, an absent or overflowed operand slot means no
result slot is created; for division and MOD, a divisor slot that is defined
zero creates the result slot (overflow for division, defined 0 for MOD)
regardless of the slot of the other operand. -/
theorem C7_frame_rule_amended :
    ∀ (S : R64sem) (lc rc : CV S.R),
      (∀ c, visit_div_expression S lc rc = some c →
        (c.cv_u64 ≠ Slot.absent →
          ISZERO_CVALUE_uint64 rc.cv_u64 = true ∨ both_defined lc.cv_u64 rc.cv_u64) ∧
        (c.cv_i64 ≠ Slot.absent →
          ISZERO_CVALUE_int64 rc.cv_i64 = true ∨ both_defined lc.cv_i64 rc.cv_i64) ∧
        (c.cv_f64 ≠ Slot.absent →
          ISZERO_CVALUE_real64 S rc.cv_f64 = true ∨ both_defined lc.cv_f64 rc.cv_f64)) ∧
      (∀ c, visit_mod_expression S lc rc = some c →
        (c.cv_u64 ≠ Slot.absent →
          ISZERO_CVALUE_uint64 rc.cv_u64 = true ∨ both_defined lc.cv_u64 rc.cv_u64) ∧
        (c.cv_i64 ≠ Slot.absent →
          ISZERO_CVALUE_int64 rc.cv_i64 = true ∨ both_defined lc.cv_i64 rc.cv_i64) ∧
        c.cv_f64 = Slot.absent) ∧
      (∀ c, visit_mul_expression S lc rc = some c →
        (c.cv_u64 ≠ Slot.absent → both_defined lc.cv_u64 rc.cv_u64) ∧
        (c.cv_i64 ≠ Slot.absent → both_defined lc.cv_i64 rc.cv_i64) ∧
        (c.cv_f64 ≠ Slot.absent → both_defined lc.cv_f64 rc.cv_f64)) ∧
      ((visit_power_expression S lc rc).cv_f64 ≠ Slot.absent →
        (∃ a, lc.cv_f64 = Slot.defined a) ∧
        ((∃ e, rc.cv_i64 = Slot.defined e) ∨ (∃ e, rc.cv_u64 = Slot.defined e))) ∧
      ((visit_or_expression lc rc).cv_bool ≠ Slot.absent → both_defined lc.cv_bool rc.cv_bool) ∧
      ((visit_or_expression lc rc).cv_u64 ≠ Slot.absent → both_defined lc.cv_u64 rc.cv_u64) ∧
      ((visit_xor_expression lc rc).cv_bool ≠ Slot.absent → both_defined lc.cv_bool rc.cv_bool) ∧
      ((visit_xor_expression lc rc).cv_u64 ≠ Slot.absent → both_defined lc.cv_u64 rc.cv_u64) ∧
      ((visit_and_expression lc rc).cv_bool ≠ Slot.absent → both_defined lc.cv_bool rc.cv_bool) ∧
      ((visit_and_expression lc rc).cv_u64 ≠ Slot.absent → both_defined lc.cv_u64 rc.cv_u64) ∧
      ((visit_equ_expression S lc rc).cv_bool ≠ Slot.absent → some_pair_defined S lc rc) ∧
      ((visit_notequ_expression S lc rc).cv_bool ≠ Slot.absent → some_pair_defined S lc rc) ∧
      ((visit_lt_expression S lc rc).cv_bool ≠ Slot.absent → some_pair_defined S lc rc) ∧
      ((visit_gt_expression S lc rc).cv_bool ≠ Slot.absent → some_pair_defined S lc rc) ∧
      ((visit_le_expression S lc rc).cv_bool ≠ Slot.absent → some_pair_defined S lc rc) ∧
      ((visit_ge_expression S lc rc).cv_bool ≠ Slot.absent → some_pair_defined S lc rc) ∧
      ((visit_add_expression S lc rc).cv_u64 ≠ Slot.absent → both_defined lc.cv_u64 rc.cv_u64) ∧
      ((visit_add_expression S lc rc).cv_i64 ≠ Slot.absent → both_defined lc.cv_i64 rc.cv_i64) ∧
      ((visit_add_expression S lc rc).cv_f64 ≠ Slot.absent → both_defined lc.cv_f64 rc.cv_f64) ∧
      ((visit_sub_expression S lc rc).cv_u64 ≠ Slot.absent → both_defined lc.cv_u64 rc.cv_u64) ∧
      ((visit_sub_expression S lc rc).cv_i64 ≠ Slot.absent → both_defined lc.cv_i64 rc.cv_i64) ∧
      ((visit_sub_expression S lc rc).cv_f64 ≠ Slot.absent → both_defined lc.cv_f64 rc.cv_f64) := by
  intro S lc rc
  refine ⟨?_, ?_, ?_, ?_, ?_, ?_, ?_, ?_, ?_, ?_, ?_, ?_, ?_, ?_, ?_, ?_, ?_, ?_, ?_, ?_, ?_, ?_⟩
  · -- div
    intro c h
    rcases hi : div_i64_slot lc.cv_i64 rc.cv_i64 with _ | islot
    · simp only [visit_div_expression, hi] at h
      exact Option.noConfusion h
    · simp only [visit_div_expression, hi, Option.some.injEq] at h
      subst h
      refine ⟨?_, ?_, ?_⟩
      · intro hne
        simp only [div_u64_slot] at hne
        cases hz : ISZERO_CVALUE_uint64 rc.cv_u64 with
        | true => exact Or.inl rfl
        | false =>
            rw [hz] at hne
            simp only [Bool.false_eq_true, if_false] at hne
            exact Or.inr (do_binary_first_ne_absent (CHECK_OVERFLOW_uint64_DIV_ne_absent hne))
      · intro hne
        simp only [div_i64_slot] at hi
        cases hz : ISZERO_CVALUE_int64 rc.cv_i64 with
        | true => exact Or.inl rfl
        | false =>
            rw [hz] at hi
            simp only [Bool.false_eq_true, if_false] at hi
            rcases hd : int64_div_op lc.cv_i64 rc.cv_i64 with _ | d
            · rw [hd] at hi; exact Option.noConfusion hi
            · rw [hd] at hi
              simp only [Option.some.injEq] at hi
              subst hi
              exact Or.inr (int64_div_op_ne_absent hd (CHECK_OVERFLOW_int64_DIV_ne_absent hne))
      · intro hne
        simp only [div_f64_slot] at hne
        cases hz : ISZERO_CVALUE_real64 S rc.cv_f64 with
        | true => exact Or.inl rfl
        | false =>
            rw [hz] at hne
            simp only [Bool.false_eq_true, if_false] at hne
            exact Or.inr (do_binary_first_ne_absent (CHECK_OVERFLOW_real64_ne_absent hne))
  · -- mod
    intro c h
    rcases hi : mod_i64_slot lc.cv_i64 rc.cv_i64 with _ | islot
    · simp only [visit_mod_expression, hi] at h
      exact Option.noConfusion h
    · simp only [visit_mod_expression, hi, Option.some.injEq] at h
      subst h
      refine ⟨?_, ?_, rfl⟩
      · intro hne
        simp only [mod_u64_slot] at hne
        cases hz : ISZERO_CVALUE_uint64 rc.cv_u64 with
        | true => exact Or.inl rfl
        | false =>
            rw [hz] at hne
            simp only [Bool.false_eq_true, if_false] at hne
            exact Or.inr (do_binary_first_ne_absent (CHECK_OVERFLOW_uint64_MOD_ne_absent hne))
      · intro hne
        simp only [mod_i64_slot] at hi
        cases hz : ISZERO_CVALUE_int64 rc.cv_i64 with
        | true => exact Or.inl rfl
        | false =>
            rw [hz] at hi
            simp only [Bool.false_eq_true, if_false] at hi
            rcases hd : int64_mod_op lc.cv_i64 rc.cv_i64 with _ | d
            · rw [hd] at hi; exact Option.noConfusion hi
            · rw [hd] at hi
              simp only [Option.some.injEq] at hi
              subst hi
              exact Or.inr (int64_mod_op_ne_absent hd (CHECK_OVERFLOW_int64_MOD_ne_absent hne))
  · -- mul
    intro c h
    rcases hu : CHECK_OVERFLOW_uint64_MUL lc.cv_u64 rc.cv_u64
        (do_binary_upd lc.cv_u64 rc.cv_u64 (fun a b => u64_wrap (a * b)) Slot.absent)
      with _ | u
    · simp only [visit_mul_expression, hu] at h
      exact Option.noConfusion h
    · simp only [visit_mul_expression, hu, Option.some.injEq] at h
      subst h
      refine ⟨?_, ?_, ?_⟩
      · intro hne
        exact do_binary_first_ne_absent (CHECK_OVERFLOW_uint64_MUL_ne_absent hu hne)
      · intro hne
        exact do_binary_first_ne_absent (CHECK_OVERFLOW_int64_MUL_ne_absent hne)
      · intro hne
        exact do_binary_first_ne_absent (CHECK_OVERFLOW_real64_ne_absent hne)
  · -- power
    intro hne
    simp only [visit_power_expression] at hne
    have h2 := CHECK_OVERFLOW_real64_ne_absent hne
    rcases hf : lc.cv_f64 with _ | a | _ <;> rw [hf] at h2 <;>
      rcases hu2 : rc.cv_u64 with _ | e | _ <;> rw [hu2] at h2 <;>
        rcases hi2 : rc.cv_i64 with _ | e2 | _ <;> rw [hi2] at h2 <;>
          simp_all
  · -- or bool
    intro h
    simp only [visit_or_expression] at h
    exact do_binary_first_ne_absent h
  · intro h
    simp only [visit_or_expression] at h
    exact do_binary_first_ne_absent h
  · intro h
    simp only [visit_xor_expression] at h
    exact do_binary_first_ne_absent h
  · intro h
    simp only [visit_xor_expression] at h
    exact do_binary_first_ne_absent h
  · intro h
    simp only [visit_and_expression] at h
    exact do_binary_first_ne_absent h
  · intro h
    simp only [visit_and_expression] at h
    exact do_binary_first_ne_absent h
  · intro h
    simp only [visit_equ_expression] at h
    exact cmp_chain_ne_absent S h
  · intro h
    simp only [visit_notequ_expression] at h
    exact cmp_chain_ne_absent S h
  · intro h
    simp only [visit_lt_expression] at h
    exact cmp_chain_ne_absent S h
  · intro h
    simp only [visit_gt_expression] at h
    exact cmp_chain_ne_absent S h
  · intro h
    simp only [visit_le_expression] at h
    exact cmp_chain_ne_absent S h
  · intro h
    simp only [visit_ge_expression] at h
    exact cmp_chain_ne_absent S h
  · intro h
    simp only [visit_add_expression] at h
    exact do_binary_first_ne_absent (CHECK_OVERFLOW_uint64_SUM_ne_absent h)
  · intro h
    simp only [visit_add_expression] at h
    exact do_binary_first_ne_absent (CHECK_OVERFLOW_int64_SUM_ne_absent h)
  · intro h
    simp only [visit_add_expression] at h
    exact do_binary_first_ne_absent (CHECK_OVERFLOW_real64_ne_absent h)
  · intro h
    simp only [visit_sub_expression] at h
    exact do_binary_first_ne_absent (CHECK_OVERFLOW_uint64_SUB_ne_absent h)
  · intro h
    simp only [visit_sub_expression] at h
    exact do_binary_first_ne_absent (CHECK_OVERFLOW_int64_SUB_ne_absent h)
  · intro h
    simp only [visit_sub_expression] at h
    exact do_binary_first_ne_absent (CHECK_OVERFLOW_real64_ne_absent h)

theorem C7_frame_rule_amended_witness :
    ISZERO_CVALUE_uint64 (visit_integer 0 : CV Unit).cv_u64 = true ∨
    both_defined ({} : CV Unit).cv_u64 (visit_integer 0 : CV Unit).cv_u64 :=
  ((C7_frame_rule_amended S0 {} (visit_integer 0)).1
     { cv_u64 := Slot.overflow, cv_i64 := Slot.overflow } (by decide)).1 (by decide)

end ConstantFolding
namespace ConstantFolding

theorem visit_mul_some_bool (S : R64sem) {lc rc c : CV S.R}
    (h : visit_mul_expression S lc rc = some c) : c.cv_bool = Slot.absent := by
  rcases hu : CHECK_OVERFLOW_uint64_MUL lc.cv_u64 rc.cv_u64
      (do_binary_upd lc.cv_u64 rc.cv_u64 (fun a b => u64_wrap (a * b)) Slot.absent)
    with _ | u
  · simp only [visit_mul_expression, hu] at h
    exact Option.noConfusion h
  · simp only [visit_mul_expression, hu, Option.some.injEq] at h
    subst h
    rfl

theorem visit_div_some_bool (S : R64sem) {lc rc c : CV S.R}
    (h : visit_div_expression S lc rc = some c) : c.cv_bool = Slot.absent := by
  rcases hi : div_i64_slot lc.cv_i64 rc.cv_i64 with _ | islot
  · simp only [visit_div_expression, hi] at h
    exact Option.noConfusion h
  · simp only [visit_div_expression, hi, Option.some.injEq] at h
    subst h
    rfl

theorem visit_mod_some_bool (S : R64sem) {lc rc c : CV S.R}
    (h : visit_mod_expression S lc rc = some c) : c.cv_bool = Slot.absent := by
  rcases hi : mod_i64_slot lc.cv_i64 rc.cv_i64 with _ | islot
  · simp only [visit_mod_expression, hi] at h
    exact Option.noConfusion h
  · simp only [visit_mod_expression, hi, Option.some.injEq] at h
    subst h
    rfl

theorem visit_bin_slots_ok (S : R64sem) (k : BinOp) (lc rc c : CV S.R)
    (h : visit_bin S k lc rc = some c) :
    c.cv_bool ≠ Slot.overflow ∧
    ((k = BinOp.or_op ∨ k = BinOp.xor_op ∨ k = BinOp.and_op) → c.cv_u64 ≠ Slot.overflow) := by
  cases k
  case or_op =>
    simp only [visit_bin, Option.some.injEq] at h
    subst h
    exact ⟨do_binary_upd_ne_overflow (by simp), fun _ => do_binary_upd_ne_overflow (by simp)⟩
  case xor_op =>
    simp only [visit_bin, Option.some.injEq] at h
    subst h
    exact ⟨do_binary_upd_ne_overflow (by simp), fun _ => do_binary_upd_ne_overflow (by simp)⟩
  case and_op =>
    simp only [visit_bin, Option.some.injEq] at h
    subst h
    exact ⟨do_binary_upd_ne_overflow (by simp), fun _ => do_binary_upd_ne_overflow (by simp)⟩
  case equ =>
    simp only [visit_bin, Option.some.injEq] at h
    subst h
    refine ⟨?_, ?_⟩
    · exact do_binary_upd_ne_overflow (do_binary_upd_ne_overflow
        (do_binary_upd_ne_overflow (do_binary_upd_ne_overflow (by simp))))
    · intro hL; simp at hL
  case notequ =>
    simp only [visit_bin, Option.some.injEq] at h
    subst h
    refine ⟨?_, ?_⟩
    · exact do_binary_upd_ne_overflow (do_binary_upd_ne_overflow
        (do_binary_upd_ne_overflow (do_binary_upd_ne_overflow (by simp))))
    · intro hL; simp at hL
  case lt =>
    simp only [visit_bin, Option.some.injEq] at h
    subst h
    refine ⟨?_, ?_⟩
    · exact do_binary_upd_ne_overflow (do_binary_upd_ne_overflow
        (do_binary_upd_ne_overflow (do_binary_upd_ne_overflow (by simp))))
    · intro hL; simp at hL
  case gt =>
    simp only [visit_bin, Option.some.injEq] at h
    subst h
    refine ⟨?_, ?_⟩
    · exact do_binary_upd_ne_overflow (do_binary_upd_ne_overflow
        (do_binary_upd_ne_overflow (do_binary_upd_ne_overflow (by simp))))
    · intro hL; simp at hL
  case le =>
    simp only [visit_bin, Option.some.injEq] at h
    subst h
    refine ⟨?_, ?_⟩
    · exact do_binary_upd_ne_overflow (do_binary_upd_ne_overflow
        (do_binary_upd_ne_overflow (do_binary_upd_ne_overflow (by simp))))
    · intro hL; simp at hL
  case ge =>
    simp only [visit_bin, Option.some.injEq] at h
    subst h
    refine ⟨?_, ?_⟩
    · exact do_binary_upd_ne_overflow (do_binary_upd_ne_overflow
        (do_binary_upd_ne_overflow (do_binary_upd_ne_overflow (by simp))))
    · intro hL; simp at hL
  case add =>
    simp only [visit_bin, Option.some.injEq] at h
    subst h
    exact ⟨by simp [visit_add_expression], fun hL => by simp at hL⟩
  case sub =>
    simp only [visit_bin, Option.some.injEq] at h
    subst h
    exact ⟨by simp [visit_sub_expression], fun hL => by simp at hL⟩
  case power =>
    simp only [visit_bin, Option.some.injEq] at h
    subst h
    exact ⟨by simp [visit_power_expression], fun hL => by simp at hL⟩
  case mul =>
    simp only [visit_bin] at h
    exact ⟨by rw [visit_mul_some_bool S h]; simp, fun hL => by simp at hL⟩
  case div =>
    simp only [visit_bin] at h
    exact ⟨by rw [visit_div_some_bool S h]; simp, fun hL => by simp at hL⟩
  case mod =>
    simp only [visit_bin] at h
    exact ⟨by rw [visit_mod_some_bool S h]; simp, fun hL => by simp at hL⟩

/-- C10: after a successful fold, no node of the result carries an
overflow-marked bool slot (every bool slot the pass creates is defined), and
no OR/XOR/AND/NOT node carries an overflow-marked uint64 slot (their bitwise
dispatches have no overflow path). -/
theorem C10_no_bool_overflow :
    ∀ (S : R64sem) (t t2 : AExp S.R), fold S t = some t2 →
      AllNodes (fun n => n.cv.cv_bool ≠ Slot.overflow ∧
                         (isLogicNode n → n.cv.cv_u64 ≠ Slot.overflow)) t2 := by
  intro S t
  induction t with
  | integer n cv =>
      intro t2 h
      simp only [fold, Option.some.injEq] at h
      subst h
      exact ⟨by simp [AExp.cv, visit_integer], fun hL => by simp [isLogicNode] at hL⟩
  | real v ovf cv =>
      intro t2 h
      simp only [fold, Option.some.injEq] at h
      subst h
      exact ⟨by simp [AExp.cv, visit_real], fun hL => by simp [isLogicNode] at hL⟩
  | boolean_true cv =>
      intro t2 h
      simp only [fold, Option.some.injEq] at h
      subst h
      exact ⟨by simp [AExp.cv, visit_boolean_true], fun hL => by simp [isLogicNode] at hL⟩
  | boolean_false cv =>
      intro t2 h
      simp only [fold, Option.some.injEq] at h
      subst h
      exact ⟨by simp [AExp.cv, visit_boolean_false], fun hL => by simp [isLogicNode] at hL⟩
  | nonconst cv =>
      intro t2 h
      simp only [fold, Option.some.injEq] at h
      subst h
      exact ⟨by simp [AExp.cv], fun hL => by simp [isLogicNode] at hL⟩
  | bit_string_literal cv =>
      intro t2 h
      simp only [fold, Option.some.injEq] at h
      subst h
      exact ⟨by simp [AExp.cv], fun hL => by simp [isLogicNode] at hL⟩
  | neg_integer e cv ih =>
      intro t2 h
      simp only [fold] at h
      cases he : fold S e with
      | none => rw [he] at h; exact Option.noConfusion h
      | some e2 =>
          rw [he] at h
          simp only [Option.some.injEq] at h
          subst h
          refine ⟨⟨?_, ?_⟩, ih e2 he⟩
          · simp [AExp.cv, visit_neg_integer]
          · intro hL; simp [isLogicNode] at hL
  | neg_real e cv ih =>
      intro t2 h
      simp only [fold] at h
      cases he : fold S e with
      | none => rw [he] at h; exact Option.noConfusion h
      | some e2 =>
          rw [he] at h
          simp only [Option.some.injEq] at h
          subst h
          refine ⟨⟨?_, ?_⟩, ih e2 he⟩
          · simp [AExp.cv, visit_neg_real]
          · intro hL; simp [isLogicNode] at hL
  | neg_expression e cv ih =>
      intro t2 h
      simp only [fold] at h
      cases he : fold S e with
      | none => rw [he] at h; exact Option.noConfusion h
      | some e2 =>
          rw [he] at h
          simp only [Option.some.injEq] at h
          subst h
          refine ⟨⟨?_, ?_⟩, ih e2 he⟩
          · simp [AExp.cv, visit_neg_expression]
          · intro hL; simp [isLogicNode] at hL
  | not_expression e cv ih =>
      intro t2 h
      simp only [fold] at h
      cases he : fold S e with
      | none => rw [he] at h; exact Option.noConfusion h
      | some e2 =>
          rw [he] at h
          simp only [Option.some.injEq] at h
          subst h
          refine ⟨⟨?_, fun _ => ?_⟩, ih e2 he⟩
          · show (visit_not_expression e2.cv).cv_bool ≠ Slot.overflow
            simp only [visit_not_expression]
            exact do_unary_upd_ne_overflow
          · show (visit_not_expression e2.cv).cv_u64 ≠ Slot.overflow
            simp only [visit_not_expression]
            exact do_unary_upd_ne_overflow
  | integer_literal e cv ih =>
      intro t2 h
      simp only [fold] at h
      cases he : fold S e with
      | none => rw [he] at h; exact Option.noConfusion h
      | some e2 =>
          rw [he] at h
          simp only [Option.some.injEq] at h
          subst h
          refine ⟨⟨?_, ?_⟩, ih e2 he⟩
          · simp [AExp.cv, visit_integer_literal]
          · intro hL; simp [isLogicNode] at hL
  | real_literal e cv ih =>
      intro t2 h
      simp only [fold] at h
      cases he : fold S e with
      | none => rw [he] at h; exact Option.noConfusion h
      | some e2 =>
          rw [he] at h
          simp only [Option.some.injEq] at h
          subst h
          refine ⟨⟨?_, ?_⟩, ih e2 he⟩
          · simp [AExp.cv, visit_real_literal]
          · intro hL; simp [isLogicNode] at hL
  | boolean_literal e cv ih =>
      intro t2 h
      simp only [fold] at h
      cases he : fold S e with
      | none => rw [he] at h; exact Option.noConfusion h
      | some e2 =>
          rw [he] at h
          simp only [Option.some.injEq] at h
          subst h
          refine ⟨⟨?_, ?_⟩, ih e2 he⟩
          · show (visit_boolean_literal e2.cv).cv_bool ≠ Slot.overflow
            simp only [visit_boolean_literal]
            exact do_unary_upd_ne_overflow
          · intro hL; simp [isLogicNode] at hL
  | bin k l r cv ihl ihr =>
      intro t2 h
      simp only [fold] at h
      cases hl : fold S l with
      | none => rw [hl] at h; exact Option.noConfusion h
      | some l2 =>
          rw [hl] at h
          cases hr : fold S r with
          | none => simp only [hr] at h; exact Option.noConfusion h
          | some r2 =>
              cases hc : visit_bin S k l2.cv r2.cv with
              | none => simp only [hr, hc] at h; exact Option.noConfusion h
              | some c =>
                  simp only [hr, hc, Option.some.injEq] at h
                  subst h
                  have hks := visit_bin_slots_ok S k l2.cv r2.cv c hc
                  refine ⟨⟨hks.1, fun hL => ?_⟩, ihl l2 hl, ihr r2 hr⟩
                  cases k <;> simp [isLogicNode] at hL <;>
                    exact hks.2 (by simp)
end ConstantFolding
namespace ConstantFolding

theorem C10_no_bool_overflow_witness :
    AllNodes (fun n => n.cv.cv_bool ≠ Slot.overflow ∧
                       (isLogicNode n → n.cv.cv_u64 ≠ Slot.overflow)) c6_output :=
  C10_no_bool_overflow S0 c6_input c6_output (by decide)

end ConstantFolding
namespace ConstantFolding

theorem i64_wrap_eq {z : Int} (h1 : INT64_MIN ≤ z) (h2 : z ≤ INT64_MAX) : i64_wrap z = z := by
  simp only [i64_wrap, INT64_MIN, INT64_MAX] at *
  omega

theorem mul_tdiv_le_of_nonneg {d m : Int} (hd : 0 < d) (hm : 0 ≤ m) :
    d * Int.tdiv m d ≤ m := by
  rw [Int.tdiv_eq_ediv hm (by omega), mul_comm]
  exact Int.ediv_mul_le m (by omega)

theorem mul_tdiv_ge_of_nonpos {d m : Int} (hd : 0 < d) (hm : m ≤ 0) :
    m ≤ d * Int.tdiv m d := by
  have h2 : Int.tdiv m d = -(Int.tdiv (-m) d) := by
    conv_lhs => rw [show m = -(-m) by ring]
    exact Int.neg_tdiv (-m) d
  have h3 : d * Int.tdiv (-m) d ≤ -m := mul_tdiv_le_of_nonneg hd (by omega)
  rw [h2]
  linarith

theorem mul_tdiv_le_of_neg {d m : Int} (hd : d < 0) (hm : 0 ≤ m) :
    d * Int.tdiv m d ≤ m := by
  have h2 : Int.tdiv m d = -(Int.tdiv m (-d)) := by
    conv_lhs => rw [show d = -(-d) by ring]
    exact Int.tdiv_neg m (-d)
  have h3 : (-d) * Int.tdiv m (-d) ≤ m := mul_tdiv_le_of_nonneg (by omega) hm
  rw [h2]
  linarith [h3]

theorem int64_mul_in_range {a b : Int}
    (ha1 : INT64_MIN ≤ a) (ha2 : a ≤ INT64_MAX) (_hb1 : INT64_MIN ≤ b) (hb2 : b ≤ INT64_MAX)
    (h1 : ¬(0 < a ∧ 0 < b ∧ Int.tdiv INT64_MAX b < a))
    (h2 : ¬(0 < a ∧ ¬0 < b ∧ b < Int.tdiv INT64_MIN a))
    (h3 : ¬(¬0 < a ∧ 0 < b ∧ a < Int.tdiv INT64_MIN b))
    (h4 : ¬(¬0 < a ∧ ¬0 < b ∧ a ≠ 0 ∧ b < Int.tdiv INT64_MAX a)) :
    INT64_MIN ≤ a * b ∧ a * b ≤ INT64_MAX := by
  have hMAXnn : (0 : Int) ≤ INT64_MAX := by simp [INT64_MAX]
  have hMINnp : INT64_MIN ≤ (0 : Int) := by simp [INT64_MIN]
  rcases lt_trichotomy 0 a with hap | ha0 | haneg
  · rcases le_or_lt b 0 with hble | hbpos
    · have hge : Int.tdiv INT64_MIN a ≤ b := by
        by_contra hx
        exact h2 ⟨hap, not_lt.mpr hble, not_le.mp hx⟩
      constructor
      · have k1 : a * Int.tdiv INT64_MIN a ≤ a * b :=
          mul_le_mul_of_nonneg_left hge (le_of_lt hap)
        have k2 : INT64_MIN ≤ a * Int.tdiv INT64_MIN a := mul_tdiv_ge_of_nonpos hap hMINnp
        linarith
      · have k3 : a * b ≤ 0 := mul_nonpos_iff.mpr (Or.inl ⟨le_of_lt hap, hble⟩)
        linarith
    · have hle : a ≤ Int.tdiv INT64_MAX b := by
        by_contra hx
        exact h1 ⟨hap, hbpos, not_le.mp hx⟩
      constructor
      · have k1 : 0 < a * b := mul_pos hap hbpos
        linarith
      · have k1 : a * b ≤ Int.tdiv INT64_MAX b * b :=
          mul_le_mul_of_nonneg_right hle (le_of_lt hbpos)
        have k2 : b * Int.tdiv INT64_MAX b ≤ INT64_MAX := mul_tdiv_le_of_nonneg hbpos hMAXnn
        nlinarith [k1, k2]
  · subst ha0
    constructor
    · simpa using hMINnp
    · simpa using hMAXnn
  · rcases le_or_lt b 0 with hble | hbpos
    · have hge : Int.tdiv INT64_MAX a ≤ b := by
        by_contra hx
        exact h4 ⟨not_lt.mpr (le_of_lt haneg), not_lt.mpr hble, by omega, not_le.mp hx⟩
      constructor
      · have k1 : 0 ≤ a * b := by nlinarith [mul_nonneg (by omega : (0:Int) ≤ -a) (by omega : (0:Int) ≤ -b)]
        linarith
      · have k1 : a * b ≤ a * Int.tdiv INT64_MAX a :=
          mul_le_mul_of_nonpos_left hge (le_of_lt haneg)
        have k2 : a * Int.tdiv INT64_MAX a ≤ INT64_MAX := mul_tdiv_le_of_neg haneg hMAXnn
        linarith
    · have hge : Int.tdiv INT64_MIN b ≤ a := by
        by_contra hx
        exact h3 ⟨not_lt.mpr (le_of_lt haneg), hbpos, not_le.mp hx⟩
      constructor
      · have k1 : Int.tdiv INT64_MIN b * b ≤ a * b :=
          mul_le_mul_of_nonneg_right hge (le_of_lt hbpos)
        have k2 : INT64_MIN ≤ b * Int.tdiv INT64_MIN b := mul_tdiv_ge_of_nonpos hbpos hMINnp
        nlinarith [k1, k2]
      · have k3 : a * b ≤ 0 := mul_nonpos_iff.mpr (Or.inr ⟨le_of_lt haneg, le_of_lt hbpos⟩)
        linarith

end ConstantFolding
namespace ConstantFolding

theorem add_u64_exact {a b v : Nat}
    (hra : a < 18446744073709551616) (hrb : b < 18446744073709551616)
    (hv : CHECK_OVERFLOW_uint64_SUM (Slot.defined a) (Slot.defined b)
            (do_binary_upd (Slot.defined a) (Slot.defined b)
              (fun x y => u64_wrap (x + y)) Slot.absent) = Slot.defined v) :
    v = a + b := by
  simp only [do_binary_upd, CHECK_OVERFLOW_uint64_SUM] at hv
  split at hv
  · exact Slot.noConfusion hv
  · case isFalse hcond =>
      simp only [Slot.defined.injEq] at hv
      simp only [u64_wrap, UINT64_MAX] at hv hcond
      omega

theorem add_i64_exact {a b v : Int}
    (hra1 : INT64_MIN ≤ a) (hra2 : a ≤ INT64_MAX) (hrb1 : INT64_MIN ≤ b) (hrb2 : b ≤ INT64_MAX)
    (hv : CHECK_OVERFLOW_int64_SUM (Slot.defined a) (Slot.defined b)
            (do_binary_upd (Slot.defined a) (Slot.defined b)
              (fun x y => i64_wrap (x + y)) Slot.absent) = Slot.defined v) :
    v = a + b := by
  simp only [do_binary_upd, CHECK_OVERFLOW_int64_SUM] at hv
  split at hv
  · exact Slot.noConfusion hv
  · case isFalse hcond =>
      simp only [Slot.defined.injEq] at hv
      rw [i64_wrap_eq (by simp only [INT64_MIN, INT64_MAX] at *; omega)
          (by simp only [INT64_MIN, INT64_MAX] at *; omega)] at hv
      exact hv.symm

theorem sub_u64_exact {a b v : Nat}
    (hra : a < 18446744073709551616) (hrb : b < 18446744073709551616)
    (hv : CHECK_OVERFLOW_uint64_SUB (Slot.defined a) (Slot.defined b)
            (do_binary_upd (Slot.defined a) (Slot.defined b)
              (fun x y => u64_wrap (x + 18446744073709551616 - y)) Slot.absent) = Slot.defined v) :
    (v : Int) = (a : Int) - (b : Int) := by
  simp only [do_binary_upd, CHECK_OVERFLOW_uint64_SUB] at hv
  split at hv
  · exact Slot.noConfusion hv
  · case isFalse hcond =>
      simp only [Slot.defined.injEq] at hv
      simp only [u64_wrap] at hv
      omega

theorem sub_i64_exact {a b v : Int}
    (hra1 : INT64_MIN ≤ a) (hra2 : a ≤ INT64_MAX) (hrb1 : INT64_MIN ≤ b) (hrb2 : b ≤ INT64_MAX)
    (hv : CHECK_OVERFLOW_int64_SUB (Slot.defined a) (Slot.defined b)
            (do_binary_upd (Slot.defined a) (Slot.defined b)
              (fun x y => i64_wrap (x - y)) Slot.absent) = Slot.defined v) :
    v = a - b := by
  simp only [do_binary_upd, CHECK_OVERFLOW_int64_SUB] at hv
  split at hv
  · exact Slot.noConfusion hv
  · case isFalse hcond =>
      simp only [Slot.defined.injEq] at hv
      rw [i64_wrap_eq (by simp only [INT64_MIN, INT64_MAX] at *; omega)
          (by simp only [INT64_MIN, INT64_MAX] at *; omega)] at hv
      exact hv.symm

theorem mul_u64_exact {a b v : Nat} {u : Slot Nat}
    (hu : CHECK_OVERFLOW_uint64_MUL (Slot.defined a) (Slot.defined b)
            (do_binary_upd (Slot.defined a) (Slot.defined b)
              (fun x y => u64_wrap (x * y)) Slot.absent) = some u)
    (hv : u = Slot.defined v) : v = a * b := by
  simp only [do_binary_upd, CHECK_OVERFLOW_uint64_MUL] at hu
  by_cases ha0 : a = 0
  · simp [ha0] at hu
  · rw [if_neg ha0] at hu
    split at hu
    · simp only [Option.some.injEq] at hu
      subst hu
      exact Slot.noConfusion hv
    · rename_i hcond
      · simp only [Option.some.injEq] at hu
        subst hu
        simp only [Slot.defined.injEq] at hv
        have hle : b ≤ UINT64_MAX / a := not_lt.mp hcond
        have hmul : b * a ≤ UINT64_MAX := (Nat.le_div_iff_mul_le (by omega)).mp hle
        have hlt : a * b < 18446744073709551616 := by
          simp only [UINT64_MAX] at hmul
          calc a * b = b * a := Nat.mul_comm a b
            _ < 18446744073709551616 := by omega
        rw [← hv]
        simp only [u64_wrap]
        exact Nat.mod_eq_of_lt hlt

theorem mul_i64_exact {a b v : Int}
    (hra1 : INT64_MIN ≤ a) (hra2 : a ≤ INT64_MAX) (hrb1 : INT64_MIN ≤ b) (hrb2 : b ≤ INT64_MAX)
    (hv : CHECK_OVERFLOW_int64_MUL (Slot.defined a) (Slot.defined b)
            (do_binary_upd (Slot.defined a) (Slot.defined b)
              (fun x y => i64_wrap (x * y)) Slot.absent) = Slot.defined v) :
    v = a * b := by
  simp only [do_binary_upd, CHECK_OVERFLOW_int64_MUL] at hv
  split at hv
  · exact Slot.noConfusion hv
  · case isFalse hcond =>
      simp only [Slot.defined.injEq] at hv
      have hq1 : ¬(0 < a ∧ 0 < b ∧ Int.tdiv INT64_MAX b < a) :=
        fun hh => hcond (Or.inl hh)
      have hq2 : ¬(0 < a ∧ ¬0 < b ∧ b < Int.tdiv INT64_MIN a) :=
        fun hh => hcond (Or.inr (Or.inl hh))
      have hq3 : ¬(¬0 < a ∧ 0 < b ∧ a < Int.tdiv INT64_MIN b) :=
        fun hh => hcond (Or.inr (Or.inr (Or.inl hh)))
      have hq4 : ¬(¬0 < a ∧ ¬0 < b ∧ a ≠ 0 ∧ b < Int.tdiv INT64_MAX a) :=
        fun hh => hcond (Or.inr (Or.inr (Or.inr hh)))
      have hr := int64_mul_in_range hra1 hra2 hrb1 hrb2 hq1 hq2 hq3 hq4
      rw [i64_wrap_eq hr.1 hr.2] at hv
      exact hv.symm

theorem div_u64_exact {a b v : Nat}
    (hv : div_u64_slot (Slot.defined a) (Slot.defined b) = Slot.defined v) : v = a / b := by
  simp only [div_u64_slot, ISZERO_CVALUE_uint64] at hv
  by_cases hb0 : b = 0
  · simp [hb0] at hv
  · simp only [beq_iff_eq, hb0, if_neg, if_false] at hv
    simp only [do_binary_upd, CHECK_OVERFLOW_uint64_DIV, if_neg hb0] at hv
    simp only [Slot.defined.injEq] at hv
    exact hv.symm

theorem div_i64_exact {a b v : Int} {islot : Slot Int}
    (hi : div_i64_slot (Slot.defined a) (Slot.defined b) = some islot)
    (hv : islot = Slot.defined v) : v = Int.tdiv a b := by
  simp only [div_i64_slot, ISZERO_CVALUE_int64] at hi
  by_cases hb0 : b = 0
  · simp only [beq_iff_eq, hb0, if_pos, if_true, Option.some.injEq] at hi
    subst hi
    exact Slot.noConfusion hv
  · simp only [beq_iff_eq, hb0, if_neg, if_false, int64_div_op] at hi
    by_cases hcor : a = INT64_MIN ∧ b = -1
    · simp [hb0, hcor] at hi
    · rw [if_neg (by tauto)] at hi
      simp only [Option.some.injEq] at hi
      subst hi
      simp only [CHECK_OVERFLOW_int64_DIV] at hv
      rw [if_neg (by tauto)] at hv
      simp only [Slot.defined.injEq] at hv
      exact hv.symm

theorem f64_check_exact {S : R64sem} {w v : S.R}
    (hv : CHECK_OVERFLOW_real64 S (Slot.defined w) = Slot.defined v) : v = w := by
  simp only [CHECK_OVERFLOW_real64] at hv
  split at hv
  · exact Slot.noConfusion hv
  · simp only [Slot.defined.injEq] at hv
    exact hv.symm

theorem div_f64_exact {S : R64sem} {a b v : S.R}
    (hv : div_f64_slot S (Slot.defined a) (Slot.defined b) = Slot.defined v) : v = S.div a b := by
  simp only [div_f64_slot, ISZERO_CVALUE_real64] at hv
  split at hv
  · exact Slot.noConfusion hv
  · simp only [do_binary_upd] at hv
    exact f64_check_exact hv

theorem mod_u64_exact {lcs : Slot Nat} {b v : Nat}
    (hv : mod_u64_slot lcs (Slot.defined b) = Slot.defined v) :
    (b = 0 → v = 0) ∧
    (∀ a, b ≠ 0 → lcs = Slot.defined a → (v : Int) = (a : Int) - ((a / b : Nat) : Int) * (b : Int)) := by
  simp only [mod_u64_slot, ISZERO_CVALUE_uint64] at hv
  by_cases hb0 : b = 0
  · simp only [beq_iff_eq, hb0, if_pos, if_true, Slot.defined.injEq] at hv
    exact ⟨fun _ => hv.symm, fun a hne _ => absurd hb0 hne⟩
  · simp only [beq_iff_eq, hb0, if_neg, if_false] at hv
    refine ⟨fun h0 => absurd h0 hb0, fun a hne ha => ?_⟩
    subst ha
    simp only [do_binary_upd, CHECK_OVERFLOW_uint64_MOD, Slot.defined.injEq] at hv
    subst hv
    have h2 : ((a % b : Nat) : Int) + ((a / b : Nat) : Int) * (b : Int) = (a : Int) := by
      exact_mod_cast congrArg (fun n : Nat => (n : Int)) (Nat.mod_add_div' a b)
    linarith

theorem mod_i64_exact {lcs : Slot Int} {b v : Int} {islot : Slot Int}
    (hi : mod_i64_slot lcs (Slot.defined b) = some islot)
    (hv : islot = Slot.defined v) :
    (b = 0 → v = 0) ∧
    (∀ a, b ≠ 0 → lcs = Slot.defined a → v = a - Int.tdiv a b * b) := by
  simp only [mod_i64_slot, ISZERO_CVALUE_int64] at hi
  by_cases hb0 : b = 0
  · simp only [beq_iff_eq, hb0, if_pos, if_true, Option.some.injEq] at hi
    subst hi
    simp only [Slot.defined.injEq] at hv
    exact ⟨fun _ => hv.symm, fun a hne _ => absurd hb0 hne⟩
  · simp only [beq_iff_eq, hb0, if_neg, if_false] at hi
    refine ⟨fun h0 => absurd h0 hb0, fun a hne ha => ?_⟩
    subst ha
    simp only [int64_mod_op] at hi
    by_cases hcor : a = INT64_MIN ∧ b = -1
    · simp [hb0, hcor] at hi
    · rw [if_neg (by tauto)] at hi
      simp only [Option.some.injEq] at hi
      subst hi
      simp only [CHECK_OVERFLOW_int64_MOD] at hv
      rw [if_neg (by tauto)] at hv
      simp only [Slot.defined.injEq] at hv
      rw [← hv, Int.tmod_def]
      ring

theorem neg_i64_exact {a v : Int}
    (hra1 : INT64_MIN ≤ a) (hra2 : a ≤ INT64_MAX)
    (hv : CHECK_OVERFLOW_int64_NEG (Slot.defined a)
            (do_unary_upd (Slot.defined a) (fun x => i64_wrap (-x))) = Slot.defined v) :
    v = -a := by
  simp only [do_unary_upd, CHECK_OVERFLOW_int64_NEG] at hv
  split at hv
  · exact Slot.noConfusion hv
  · case isFalse hcond =>
      simp only [Slot.defined.injEq] at hv
      rw [i64_wrap_eq (by simp only [INT64_MIN, INT64_MAX] at *; omega)
          (by simp only [INT64_MIN, INT64_MAX] at *; omega)] at hv
      exact hv.symm

end ConstantFolding
namespace ConstantFolding

/-- C1 (overflow discipline): for every interior arithmetic expression node
(add, sub, mul, div, MOD, unary negation), a result slot that ends up with
status defined holds exactly the mathematical result of the operation on the
operand slot values of that type: exact integer arithmetic for the uint64 and
int64 slots (division truncating toward zero, MOD with divisor 0 giving the
IEC-mandated 0), and for the real64 slot the abstract IEEE operation of the
`R64sem` semantics (round-to-nearest for genuine binary64).  The integer
range hypotheses express that operand slot values are representable, which
holds for every slot the folder itself produces. -/
theorem C1_overflow_discipline :
    ∀ (S : R64sem) (lc rc ec : CV S.R),
      (∀ a b v, lc.cv_u64 = Slot.defined a → rc.cv_u64 = Slot.defined b →
        a < 18446744073709551616 → b < 18446744073709551616 →
        (visit_add_expression S lc rc).cv_u64 = Slot.defined v → v = a + b) ∧
      (∀ a b v, lc.cv_i64 = Slot.defined a → rc.cv_i64 = Slot.defined b →
        INT64_MIN ≤ a → a ≤ INT64_MAX → INT64_MIN ≤ b → b ≤ INT64_MAX →
        (visit_add_expression S lc rc).cv_i64 = Slot.defined v → v = a + b) ∧
      (∀ a b v, lc.cv_f64 = Slot.defined a → rc.cv_f64 = Slot.defined b →
        (visit_add_expression S lc rc).cv_f64 = Slot.defined v → v = S.add a b) ∧
      (∀ a b v, lc.cv_u64 = Slot.defined a → rc.cv_u64 = Slot.defined b →
        a < 18446744073709551616 → b < 18446744073709551616 →
        (visit_sub_expression S lc rc).cv_u64 = Slot.defined v →
        (v : Int) = (a : Int) - (b : Int)) ∧
      (∀ a b v, lc.cv_i64 = Slot.defined a → rc.cv_i64 = Slot.defined b →
        INT64_MIN ≤ a → a ≤ INT64_MAX → INT64_MIN ≤ b → b ≤ INT64_MAX →
        (visit_sub_expression S lc rc).cv_i64 = Slot.defined v → v = a - b) ∧
      (∀ a b v, lc.cv_f64 = Slot.defined a → rc.cv_f64 = Slot.defined b →
        (visit_sub_expression S lc rc).cv_f64 = Slot.defined v → v = S.sub a b) ∧
      (∀ a b v c, visit_mul_expression S lc rc = some c →
        lc.cv_u64 = Slot.defined a → rc.cv_u64 = Slot.defined b →
        c.cv_u64 = Slot.defined v → v = a * b) ∧
      (∀ a b v c, visit_mul_expression S lc rc = some c →
        lc.cv_i64 = Slot.defined a → rc.cv_i64 = Slot.defined b →
        INT64_MIN ≤ a → a ≤ INT64_MAX → INT64_MIN ≤ b → b ≤ INT64_MAX →
        c.cv_i64 = Slot.defined v → v = a * b) ∧
      (∀ a b v c, visit_mul_expression S lc rc = some c →
        lc.cv_f64 = Slot.defined a → rc.cv_f64 = Slot.defined b →
        c.cv_f64 = Slot.defined v → v = S.mul a b) ∧
      (∀ a b v c, visit_div_expression S lc rc = some c →
        lc.cv_u64 = Slot.defined a → rc.cv_u64 = Slot.defined b →
        c.cv_u64 = Slot.defined v → v = a / b) ∧
      (∀ a b v c, visit_div_expression S lc rc = some c →
        lc.cv_i64 = Slot.defined a → rc.cv_i64 = Slot.defined b →
        c.cv_i64 = Slot.defined v → v = Int.tdiv a b) ∧
      (∀ a b v c, visit_div_expression S lc rc = some c →
        lc.cv_f64 = Slot.defined a → rc.cv_f64 = Slot.defined b →
        c.cv_f64 = Slot.defined v → v = S.div a b) ∧
      (∀ b v c, visit_mod_expression S lc rc = some c →
        rc.cv_u64 = Slot.defined b → c.cv_u64 = Slot.defined v →
        (b = 0 → v = 0) ∧
        (∀ a, b ≠ 0 → lc.cv_u64 = Slot.defined a →
          (v : Int) = (a : Int) - ((a / b : Nat) : Int) * (b : Int))) ∧
      (∀ b v c, visit_mod_expression S lc rc = some c →
        rc.cv_i64 = Slot.defined b → c.cv_i64 = Slot.defined v →
        (b = 0 → v = 0) ∧
        (∀ a, b ≠ 0 → lc.cv_i64 = Slot.defined a → v = a - Int.tdiv a b * b)) ∧
      (∀ a v, ec.cv_i64 = Slot.defined a → INT64_MIN ≤ a → a ≤ INT64_MAX →
        (visit_neg_expression S ec).cv_i64 = Slot.defined v → v = -a) ∧
      (∀ a v, ec.cv_f64 = Slot.defined a →
        (visit_neg_expression S ec).cv_f64 = Slot.defined v → v = S.neg a) := by
  intro S lc rc ec
  refine ⟨?_, ?_, ?_, ?_, ?_, ?_, ?_, ?_, ?_, ?_, ?_, ?_, ?_, ?_, ?_, ?_⟩
  · intro a b v ha hb hra hrb hv
    simp only [visit_add_expression] at hv
    rw [ha, hb] at hv
    exact add_u64_exact hra hrb hv
  · intro a b v ha hb hra1 hra2 hrb1 hrb2 hv
    simp only [visit_add_expression] at hv
    rw [ha, hb] at hv
    exact add_i64_exact hra1 hra2 hrb1 hrb2 hv
  · intro a b v ha hb hv
    simp only [visit_add_expression] at hv
    rw [ha, hb] at hv
    simp only [do_binary_upd] at hv
    exact f64_check_exact hv
  · intro a b v ha hb hra hrb hv
    simp only [visit_sub_expression] at hv
    rw [ha, hb] at hv
    exact sub_u64_exact hra hrb hv
  · intro a b v ha hb hra1 hra2 hrb1 hrb2 hv
    simp only [visit_sub_expression] at hv
    rw [ha, hb] at hv
    exact sub_i64_exact hra1 hra2 hrb1 hrb2 hv
  · intro a b v ha hb hv
    simp only [visit_sub_expression] at hv
    rw [ha, hb] at hv
    simp only [do_binary_upd] at hv
    exact f64_check_exact hv
  · intro a b v c hsome ha hb hv
    rcases hu : CHECK_OVERFLOW_uint64_MUL lc.cv_u64 rc.cv_u64
        (do_binary_upd lc.cv_u64 rc.cv_u64 (fun x y => u64_wrap (x * y)) Slot.absent)
      with _ | u
    · simp only [visit_mul_expression, hu] at hsome
      exact Option.noConfusion hsome
    · simp only [visit_mul_expression, hu, Option.some.injEq] at hsome
      subst hsome
      rw [ha, hb] at hu
      exact mul_u64_exact hu hv
  · intro a b v c hsome ha hb hra1 hra2 hrb1 hrb2 hv
    rcases hu : CHECK_OVERFLOW_uint64_MUL lc.cv_u64 rc.cv_u64
        (do_binary_upd lc.cv_u64 rc.cv_u64 (fun x y => u64_wrap (x * y)) Slot.absent)
      with _ | u
    · simp only [visit_mul_expression, hu] at hsome
      exact Option.noConfusion hsome
    · simp only [visit_mul_expression, hu, Option.some.injEq] at hsome
      subst hsome
      simp only at hv
      rw [ha, hb] at hv
      exact mul_i64_exact hra1 hra2 hrb1 hrb2 hv
  · intro a b v c hsome ha hb hv
    rcases hu : CHECK_OVERFLOW_uint64_MUL lc.cv_u64 rc.cv_u64
        (do_binary_upd lc.cv_u64 rc.cv_u64 (fun x y => u64_wrap (x * y)) Slot.absent)
      with _ | u
    · simp only [visit_mul_expression, hu] at hsome
      exact Option.noConfusion hsome
    · simp only [visit_mul_expression, hu, Option.some.injEq] at hsome
      subst hsome
      simp only at hv
      rw [ha, hb] at hv
      simp only [do_binary_upd] at hv
      exact f64_check_exact hv
  · intro a b v c hsome ha hb hv
    rcases hi : div_i64_slot lc.cv_i64 rc.cv_i64 with _ | islot
    · simp only [visit_div_expression, hi] at hsome
      exact Option.noConfusion hsome
    · simp only [visit_div_expression, hi, Option.some.injEq] at hsome
      subst hsome
      simp only at hv
      rw [ha, hb] at hv
      exact div_u64_exact hv
  · intro a b v c hsome ha hb hv
    rcases hi : div_i64_slot lc.cv_i64 rc.cv_i64 with _ | islot
    · simp only [visit_div_expression, hi] at hsome
      exact Option.noConfusion hsome
    · simp only [visit_div_expression, hi, Option.some.injEq] at hsome
      subst hsome
      simp only at hv
      rw [ha, hb] at hi
      exact div_i64_exact hi hv
  · intro a b v c hsome ha hb hv
    rcases hi : div_i64_slot lc.cv_i64 rc.cv_i64 with _ | islot
    · simp only [visit_div_expression, hi] at hsome
      exact Option.noConfusion hsome
    · simp only [visit_div_expression, hi, Option.some.injEq] at hsome
      subst hsome
      simp only at hv
      rw [ha, hb] at hv
      exact div_f64_exact hv
  · intro b v c hsome hb hv
    rcases hi : mod_i64_slot lc.cv_i64 rc.cv_i64 with _ | islot
    · simp only [visit_mod_expression, hi] at hsome
      exact Option.noConfusion hsome
    · simp only [visit_mod_expression, hi, Option.some.injEq] at hsome
      subst hsome
      simp only at hv
      rw [hb] at hv
      exact mod_u64_exact hv
  · intro b v c hsome hb hv
    rcases hi : mod_i64_slot lc.cv_i64 rc.cv_i64 with _ | islot
    · simp only [visit_mod_expression, hi] at hsome
      exact Option.noConfusion hsome
    · simp only [visit_mod_expression, hi, Option.some.injEq] at hsome
      subst hsome
      simp only at hv
      rw [hb] at hi
      exact mod_i64_exact hi hv
  · intro a v ha hra1 hra2 hv
    simp only [visit_neg_expression] at hv
    rw [ha] at hv
    exact neg_i64_exact hra1 hra2 hv
  · intro a v ha hv
    simp only [visit_neg_expression] at hv
    rw [ha] at hv
    simp only [do_unary_upd] at hv
    exact f64_check_exact hv

theorem C1_overflow_discipline_witness :
    (visit_add_expression S0 (visit_integer 2) (visit_integer 3)).cv_u64 = Slot.defined 5 ∧
    (5 : Nat) = 2 + 3 :=
  ⟨by decide,
   (C1_overflow_discipline S0 (visit_integer 2) (visit_integer 3) {}).1 2 3 5
     (by decide) (by decide) (by decide) (by decide) (by decide)⟩

end ConstantFolding
